import Mathlib

/-!
Verification development for the USGS LiDAR CLI tool.

We give a shallow embedding of the Python modules `boundaries.py`,
`download.py`, `config.py` and the dataset-selection loops of `cli.py`.
Geometry is modelled abstractly as finite point sets (`List (Int × Int)`);
the only geometric operations the code performs itself are delegated to
shapely (`intersects`), which we model as non-empty intersection of the
point sets.  External effects (HTTP fetches, subprocesses, the file
system, shapely validation) are modelled as oracle environments whose
calls return `Except Unit _`, so that the Python `try/except` structure
of each function can be embedded faithfully.
-/

namespace USGSLidar

/-! ## Geometry model -/

/-- A geometry is a finite set of integer points (abstract footprint). -/
abbrev Geom := List (Int × Int)

/-- Model of shapely `a.intersects(b)`: the two point sets share a point. -/
def geomIntersects (g h : Geom) : Bool :=
  g.any (fun p => h.contains p)

/-- Full cover: `f` fully covers `b` when every point of `b` lies in `f`. -/
def geomCovers (b f : Geom) : Bool :=
  b.all (fun p => f.contains p)

/-- GeoJSON geometry type tags distinguished by the source. -/
inductive GKind
  | polygon
  | multiPolygon
  | lineString
  | multiLineString
  | point
  | multiPoint
  | other
deriving DecidableEq

/-- A GeoJSON geometry value: its `type` tag and its footprint. -/
structure GeomV where
  kind : GKind
  pts : Geom
deriving DecidableEq

/-- A GeoJSON document as the boundary-handling code distinguishes them:
a `FeatureCollection` (each feature contributing an optional geometry),
a single `Feature`, a bare geometry, or any other/unsupported document. -/
inductive GeoJson
  | featureCollection (features : List (Option GeomV))
  | feature (g : Option GeomV)
  | geometry (g : GeomV)
  | otherDoc
deriving DecidableEq

/-! ## `boundaries.extract_year`

Embedding of the regex
`(?:^|[^0-9])(19[9][0-9]|20[0-2][0-9])(?:$|[^0-9])` applied with
`re.findall`, of which the source takes the first captured year.  A year
is a four-digit run valued in 1990–1999 or 2000–2029 whose neighbouring
characters (when they exist) are not digits; `findall` yields the
leftmost such occurrence first. -/

/-- Numeric value of the four characters of `cs` starting at `i`,
provided they are all digits; `none` otherwise. -/
def fourDigitAt (cs : List Char) (i : Nat) : Option Nat :=
  match cs.drop i with
  | c0 :: c1 :: c2 :: c3 :: _ =>
    if c0.isDigit ∧ c1.isDigit ∧ c2.isDigit ∧ c3.isDigit then
      some (((c0.toNat - 48) * 1000) + ((c1.toNat - 48) * 100) +
            ((c2.toNat - 48) * 10) + (c3.toNat - 48))
    else none
  | _ => none

/-- Is position `i` the start of a year match: boundary conditions on the
neighbours and the captured value in the regex's two ranges. -/
def yearAt (cs : List Char) (i : Nat) : Option Nat :=
  match fourDigitAt cs i with
  | none => none
  | some n =>
    let beforeOk : Bool :=
      decide (i = 0) || (match cs.drop (i - 1) with
                         | c :: _ => ! c.isDigit
                         | [] => false)
    let afterOk : Bool :=
      match cs.drop (i + 4) with
      | c :: _ => ! c.isDigit
      | [] => true
    if beforeOk && afterOk &&
        decide ((1990 ≤ n ∧ n ≤ 1999) ∨ (2000 ≤ n ∧ n ≤ 2029)) then
      some n
    else none

/-- Embeds `boundaries.extract_year`: first year occurring in the name. -/
def extract_year (name : String) : Option Nat :=
  let cs := name.toList
  (List.range cs.length).findSome? (fun i => yearAt cs i)

/-! ## `boundaries.extract_s3_bucket_from_url` -/

/-- Python `sub in s` via `str.split` semantics (non-overlapping,
left-to-right), which `String.splitOn` shares. -/
def strContains (s sub : String) : Bool :=
  (s.splitOn sub).length ≥ 2

/-- The text after the first occurrence of `sep` in `s` (if any). -/
def afterFirst (s sep : String) : Option String :=
  match s.splitOn sep with
  | _ :: r :: rest => some (String.intercalate sep (r :: rest))
  | _ => none

/-- Embeds `boundaries.extract_s3_bucket_from_url`.  The body only performs
total string operations, so the `try/except` wrapper never fires; the
regex search `amazonaws\.com/([^/]+)/([^/]+)` is modelled on the first
occurrence of `amazonaws.com/`. -/
def extract_s3_bucket_from_url (url : String) : Option String :=
  if strContains url "amazonaws.com" then
    let viaPublic : Option String :=
      if strContains url "usgs-lidar-public" then
        match url.splitOn "usgs-lidar-public/" with
        | _ :: p1 :: _ =>
          let dataset_path := (p1.splitOn "/ept.json").headD ""
          some ("usgs-lidar-public/" ++ dataset_path)
        | _ => none
      else none
    match viaPublic with
    | some r => some r
    | none =>
      match afterFirst url "amazonaws.com/" with
      | none => none
      | some t =>
        match t.splitOn "/" with
        | b :: p :: _ =>
          if b ≠ "" ∧ p ≠ "" then some (b ++ "/" ++ p) else none
        | _ => none
  else none

/-! ## `boundaries.find_intersecting_datasets` -/

/-- A feature of the USGS catalog: an optional geometry and a
`properties` mapping (string-valued, as in the catalog). -/
structure CatFeature where
  geometry : Option GeomV
  properties : List (String × String)
deriving DecidableEq

/-- Python `properties.get(k, d)`. -/
def propGet (ps : List (String × String)) (k d : String) : String :=
  match ps.find? (fun p => p.1 == k) with
  | some p => p.2
  | none => d

/-- A string-valued cell of the materialized pandas frame: either an
actual string, or `NaN` when the frame's column (the union of all
admitted features' property keys) exists but this feature lacks the
key. -/
inductive PdStr
  | s (v : String)
  | nan
deriving DecidableEq

/-- A `year` cell: the extracted year, or `NaN` when the `year` column
exists (some admitted feature got a year) but this feature's name
yielded none.  (pandas upcasts the column to float in that case; only
the ordering matters here, so the numeric years stay `Nat`.) -/
inductive YearVal
  | num (n : Nat)
  | nan
deriving DecidableEq

/-- One entry of the result list of `find_intersecting_datasets`:
name, url (possibly the pandas `NaN`), footprint geometry, optional
year (possibly `NaN`), optional S3 url. -/
structure DatasetEntry where
  name : String
  url : PdStr
  geometry : GeomV
  year : Option YearVal
  s3_url : Option String
deriving DecidableEq

/-- Python `k in properties` (dict key membership). -/
def propHas (ps : List (String × String)) (k : String) : Bool :=
  ps.any (fun p => p.1 == k)

/-- The parsed body the catalog fetch yields: a `FeatureCollection`
document or some other JSON document. -/
inductive FetchDoc
  | fc (features : List CatFeature)
  | notFC

/-- Oracle environment for the boundaries module: the HTTP fetch+parse
of the catalog, and shapely's `shape` (which may raise on malformed
geometry). -/
structure BEnv where
  fetch : Except Unit FetchDoc
  shape : GeomV → Except Unit GeomV

/-- Embeds `boundaries.download_usgs_boundaries`: `None` on fetch/parse error or
when the document is not a `FeatureCollection`. -/
def download_usgs_boundaries (env : BEnv) : Option (List CatFeature) :=
  match env.fetch with
  | .error _ => none
  | .ok .notFC => none
  | .ok (.fc feats) => some feats

/-- Embeds `boundaries.boundary_to_gdf`: extract the boundary geometry from the
input GeoJSON; every failure path (unsupported type, missing geometry,
`shape` raising) returns `None`. -/
def boundary_to_gdf (env : BEnv) (bj : GeoJson) : Option GeomV :=
  match bj with
  | .featureCollection feats =>
    match feats with
    | [] => none
    | f0 :: _ =>
      match f0 with
      | none => none
      | some g => (env.shape g).toOption
  | .feature g? =>
    match g? with
    | none => none
    | some g => (env.shape g).toOption
  | .geometry g =>
    -- the source accepts the six listed geometry types and rejects others
    if g.kind = .other then none else (env.shape g).toOption
  | .otherDoc => none

/-- The per-feature admission test of the catalog loop: a geometry is
present, the `properties` mapping is non-empty (Python truthiness of the
dict) and the name is non-empty. -/
def featureAdmitted (f : CatFeature) : Bool :=
  f.geometry.isSome ∧ f.properties ≠ [] ∧ propGet f.properties "name" "" ≠ ""

/-- The catalog loop of `find_intersecting_datasets`: for each admitted
feature, call shapely `shape` on its geometry (any raise aborts the
whole `try` block) and keep `(shaped geometry, properties)`. -/
def buildCandidates (env : BEnv) :
    List CatFeature → Except Unit (List (GeomV × List (String × String)))
  | [] => .ok []
  | f :: rest =>
    match f.geometry with
    | some g =>
      if f.properties ≠ [] ∧ propGet f.properties "name" "" ≠ "" then do
        let g' ← env.shape g
        let rest' ← buildCandidates env rest
        pure ((g', f.properties) :: rest')
      else buildCandidates env rest
    | none => buildCandidates env rest

/-- Does the materialized frame have a `url` column: some admitted
feature's properties carry `url`. -/
def hasUrlColumn (cands : List (GeomV × List (String × String))) : Bool :=
  cands.any (fun c => propHas c.2 "url")

/-- Does the materialized frame have a `year` column: some admitted
feature's name yields an extractable year (the loop writes the year
into that feature's properties; the catalog's own properties carry no
`year` key, so this is the only source of the column). -/
def hasYearColumn (cands : List (GeomV × List (String × String))) : Bool :=
  cands.any (fun c => (extract_year (propGet c.2 "name" "")).isSome)

/-- Build one result dictionary from an intersecting row of the pandas
frame.  The frame's columns are the union of all admitted features'
keys, so a feature lacking `url` (resp. a year) while another admitted
feature has one reads the cell as `NaN`, not `''` (resp. not absent):
`row.get('url','')` returns `NaN` for an existing column, and
`'year' in row` is true for every row once the column exists.
`extract_s3_bucket_from_url(NaN)` raises `TypeError` inside its own
`try`, so a `NaN` url yields no `s3_url`. -/
def mkEntry (hasUrlCol hasYearCol : Bool)
    (c : GeomV × List (String × String)) : DatasetEntry :=
  let name := propGet c.2 "name" ""
  let url : PdStr :=
    if propHas c.2 "url" then .s (propGet c.2 "url" "")
    else if hasUrlCol then .nan
    else .s ""
  let year : Option YearVal :=
    match extract_year name with
    | some y => some (.num y)
    | Option.none => if hasYearCol then some .nan else Option.none
  { name := name
    url := url
    geometry := c.1
    year := year
    s3_url :=
      match url with
      | .s u => if u ≠ "" then extract_s3_bucket_from_url u else Option.none
      | .nan => Option.none }

/-- The `try` block of `find_intersecting_datasets`. -/
def findIntersectingTry (env : BEnv) (feats : List CatFeature) (bg : GeomV) :
    Except Unit (List DatasetEntry) :=
  if feats = [] then .ok []
  else do
    let cands ← buildCandidates env feats
    let inter := cands.filter (fun c => geomIntersects c.1.pts bg.pts)
    pure (inter.map (mkEntry (hasUrlColumn cands) (hasYearColumn cands)))

/-- Embeds `boundaries.find_intersecting_datasets`: the catch-and-log control
flow around the `try` block; every failure path returns `[]`. -/
def find_intersecting_datasets (env : BEnv) (bj : GeoJson) : List DatasetEntry :=
  match download_usgs_boundaries env with
  | none => []
  | some feats =>
    match boundary_to_gdf env bj with
    | none => []
    | some bg =>
      match findIntersectingTry env feats bg with
      | .ok r => r
      | .error _ => []

/-- The environment in which the catalog fetch succeeds with catalog
`cat` and shapely accepts every geometry unchanged. -/
def pureEnv (cat : List CatFeature) : BEnv :=
  { fetch := .ok (.fc cat), shape := fun g => .ok g }

/-! ## `config.py`

Configuration dictionaries are JSON-derived Python values.  Python
floats are modelled with explicit `inf`/`-inf`/`NaN` values (the JSON
parser of the standard library accepts `NaN` and `Infinity`); the only
float comparisons the source performs are against zero.  The built-in
conversions `float(str)` and `int(str)` are oracle parameters, since
none of the proved properties depend on how a string parses. -/

/-- A Python float: a finite rational or one of the special values. -/
inductive PyFloat
  | fin (q : ℚ)
  | inf
  | ninf
  | nan
deriving DecidableEq

/-- Python `x <= 0` for a float (`nan <= 0` is `False`). -/
def PyFloat.leZero : PyFloat → Bool
  | .fin q => decide (q ≤ 0)
  | .inf => false
  | .ninf => true
  | .nan => false

/-- Python `x < 0` for a float. -/
def PyFloat.ltZero : PyFloat → Bool
  | .fin q => decide (q < 0)
  | .inf => false
  | .ninf => true
  | .nan => false

/-- A JSON-derived Python value as stored in a configuration dict. -/
inductive PyVal
  | int (n : ℤ)
  | float (x : PyFloat)
  | str (s : String)
  | bool (b : Bool)
  | none
  | other
deriving DecidableEq

/-- Oracles for the Python built-in string conversions. -/
structure PyEnv where
  strToFloat : String → Except Unit PyFloat
  strToInt : String → Except Unit ℤ

/-- Python `float(v)`: ints and bools convert, floats pass through,
strings go to the parsing oracle, everything else raises. -/
def pyFloat (env : PyEnv) : PyVal → Except Unit PyFloat
  | .int n => .ok (.fin n)
  | .float x => .ok x
  | .bool b => .ok (.fin (if b then 1 else 0))
  | .str s => env.strToFloat s
  | .none => .error ()
  | .other => .error ()

/-- Python `int(v)`: truncation toward zero for finite floats;
`nan`/`inf` raise; strings go to the parsing oracle. -/
def pyInt (env : PyEnv) : PyVal → Except Unit ℤ
  | .int n => .ok n
  | .float (.fin q) => .ok (if 0 ≤ q then ⌊q⌋ else ⌈q⌉)
  | .float _ => .error ()
  | .bool b => .ok (if b then 1 else 0)
  | .str s => env.strToInt s
  | .none => .error ()
  | .other => .error ()

/-- A configuration dictionary (keys unique, as in a Python dict). -/
abbrev PyDict := List (String × PyVal)

/-- Dictionary lookup `config[k]` / `k in config`. -/
def PyDict.get? : PyDict → String → Option PyVal
  | [], _ => Option.none
  | p :: rest, k => if p.1 = k then some p.2 else PyDict.get? rest k

/-- Dictionary assignment `config[k] = v` (update in place, or append
when the key is new; dict keys are unique). -/
def PyDict.set : PyDict → String → PyVal → PyDict
  | [], k, v => [(k, v)]
  | p :: rest, k, v =>
    if p.1 = k then (k, v) :: rest else p :: PyDict.set rest k v

/-- Python `d.update(u)`. -/
def PyDict.update (d u : PyDict) : PyDict :=
  u.foldl (fun acc p => acc.set p.1 p.2) d

/-- Embeds `config.DEFAULT_CONFIG`. -/
def DEFAULT_CONFIG : PyDict :=
  [("tile_size", .int 1000), ("resolution", .none),
   ("download_workers", .int 8), ("min_points", .int 100),
   ("region", .str "us-west-2")]

/-- The `tile_size` block of `validate_config`: assign `float(v)`, fall
back to the default (the int 1000) on conversion error or on `<= 0`. -/
def stepTile (env : PyEnv) (config : PyDict) : PyDict :=
  match config.get? "tile_size" with
  | Option.none => config
  | some v =>
    match pyFloat env v with
    | .error _ => config.set "tile_size" (.int 1000)
    | .ok f =>
      if f.leZero then config.set "tile_size" (.int 1000)
      else config.set "tile_size" (.float f)

/-- The `resolution` block: skipped when absent or `None`; the string
`"full"` becomes `None`; otherwise convert to float, with `None` on
error or on `<= 0`. -/
def stepRes (env : PyEnv) (config : PyDict) : PyDict :=
  match config.get? "resolution" with
  | Option.none => config
  | some v =>
    if v = PyVal.none then config
    else if v ≠ PyVal.str "full" then
      match pyFloat env v with
      | .error _ => config.set "resolution" .none
      | .ok f =>
        if f.leZero then config.set "resolution" .none
        else config.set "resolution" (.float f)
    else config.set "resolution" .none

/-- The `download_workers` block: convert to int, default 8 on error or
on `<= 0`. -/
def stepWorkers (env : PyEnv) (config : PyDict) : PyDict :=
  match config.get? "download_workers" with
  | Option.none => config
  | some v =>
    match pyInt env v with
    | .error _ => config.set "download_workers" (.int 8)
    | .ok n =>
      if n ≤ 0 then config.set "download_workers" (.int 8)
      else config.set "download_workers" (.int n)

/-- The `min_points` block: convert to int, default 100 on error or on
`< 0`. -/
def stepMinPoints (env : PyEnv) (config : PyDict) : PyDict :=
  match config.get? "min_points" with
  | Option.none => config
  | some v =>
    match pyInt env v with
    | .error _ => config.set "min_points" (.int 100)
    | .ok n =>
      if n < 0 then config.set "min_points" (.int 100)
      else config.set "min_points" (.int n)

/-- Embeds `config.validate_config`: the four validation blocks in source
order. -/
def validate_config (env : PyEnv) (config : PyDict) : PyDict :=
  stepMinPoints env (stepWorkers env (stepRes env (stepTile env config)))

/-- File-system oracle for `load_config`. -/
structure FsEnv where
  configExists : Bool
  readConfig : Except Unit PyDict

/-- Embeds `config.load_config`: defaults, overridden by the user file when it
exists and loads, then validated.  (When the file is absent the source
additionally writes the defaults out; that effect does not change the
returned value.) -/
def load_config (env : PyEnv) (fs : FsEnv) : PyDict :=
  let config := DEFAULT_CONFIG
  let config :=
    if fs.configExists then
      match fs.readConfig with
      | .ok user => config.update user
      | .error _ => config
    else config
  validate_config env config

/-- A positive number: a positive int, a positive finite float, or
`inf` (for which Python's `x <= 0` is `False`). -/
def isPosNum : PyVal → Bool
  | .int n => decide (0 < n)
  | .float (.fin q) => decide (0 < q)
  | .float .inf => true
  | _ => false

/-- A positive float (the shape `resolution` keeps after validation). -/
def isPosFloatVal : PyVal → Bool
  | .float (.fin q) => decide (0 < q)
  | .float .inf => true
  | _ => false

/-- The float `NaN` boxed as a value. -/
def isNanVal : PyVal → Bool
  | .float .nan => true
  | _ => false

/-! ## `download.create_pdal_pipeline` -/

/-- The EPT reader stage's parameters. -/
structure ReaderCfg where
  filename : String
  polygon : Option GeomV := Option.none
  bounds : Option (ℚ × ℚ × ℚ × ℚ) := Option.none
  resolution : Option ℚ := Option.none
deriving DecidableEq

/-- A PDAL pipeline stage as the source builds them. -/
inductive Stage
  | reader (cfg : ReaderCfg)
  | reprojection (out_srs : String)
  | assign (value : List String)
  | smrf (window slope threshold : ℚ) (ignore returnsOpt : String)
  | outlier (method : String) (mean_k : ℤ) (multiplier : ℚ)
  | range (limits : String)
  | writer (filename : String) (minor_version dataformat_id : Nat)
deriving DecidableEq

/-- The `resolution` argument: the string `"full"`, a numeric value, or
a value on which `float()` raises. -/
inductive ResV
  | full
  | num (q : ℚ)
  | bad
deriving DecidableEq

/-- Python `str.isdigit()`: non-empty and all digits. -/
def pyIsDigit (s : String) : Bool :=
  !s.isEmpty && s.toList.all (fun c => c.isDigit)

/-- The geometry the pipeline builder extracts from the boundary
GeoJSON: the first feature of a `FeatureCollection`, the geometry of a
`Feature`, or a bare `Polygon`/`MultiPolygon`. -/
def extractPipelineGeom : GeoJson → Option GeomV
  | .featureCollection feats =>
    match feats with
    | [] => Option.none
    | f0 :: _ => f0
  | .feature g? => g?
  | .geometry g =>
    if g.kind = .polygon ∨ g.kind = .multiPolygon then some g else Option.none
  | .otherDoc => Option.none

/-- The `filters.assign` stage added before SMRF. -/
def assignStage : Stage :=
  .assign ["ReturnNumber = 1 WHERE ReturnNumber < 1",
           "NumberOfReturns = 1 WHERE NumberOfReturns < 1"]

/-- The `filters.smrf` stage. -/
def smrfStage : Stage :=
  .smrf 18 (3 / 20) (1 / 2) "Classification[7:7]" "last, only"

/-- Embeds `pipeline["pipeline"][0]["resolution"] = float(resolution)`: the
first stage is always the reader when this runs. -/
def setHeadResolution (p : List Stage) (q : ℚ) : List Stage :=
  match p with
  | .reader cfg :: rest => .reader { cfg with resolution := some q } :: rest
  | l => l

/-- Embeds `download.create_pdal_pipeline`. -/
def create_pdal_pipeline (input_url output_laz : String)
    (boundary_geojson : Option GeoJson) (bounds : Option (ℚ × ℚ × ℚ × ℚ))
    (resolution : Option ResV) (classify_ground : Bool)
    (coordinate_reference_system : Option String) (outlier_filter : Bool)
    (outlier_mean_k : ℤ) (outlier_multiplier : ℚ) : List Stage :=
  let reader : ReaderCfg := { filename := input_url }
  -- polygon from the boundary when one is supplied; bounds only when no
  -- boundary at all was supplied (the `elif` of the source)
  let reader :=
    match boundary_geojson with
    | some bj =>
      match extractPipelineGeom bj with
      | some g => { reader with polygon := some g }
      | Option.none => reader
    | Option.none =>
      match bounds with
      | some b => { reader with bounds := some b }
      | Option.none => reader
  let stages := [Stage.reader reader]
  let stages :=
    match coordinate_reference_system with
    | some crs =>
      if pyIsDigit crs || (crs.startsWith "EPSG:" && pyIsDigit (crs.drop 5)) then
        stages ++ [Stage.reprojection
          (if crs.startsWith "EPSG:" then crs else "EPSG:" ++ crs)]
      else stages
    | Option.none => stages
  let stages := if classify_ground then stages ++ [assignStage, smrfStage] else stages
  let stages :=
    if outlier_filter then
      stages ++ [Stage.outlier "statistical" outlier_mean_k outlier_multiplier,
                 Stage.range "Classification![7:7]"]
    else stages
  let stages := stages ++ [Stage.writer output_laz 4 8]
  match resolution with
  | some (.num q) => setHeadResolution stages q
  | _ => stages

/-! ## `download.run_pdal_pipeline`, `download.get_point_count` -/

/-- Result of `subprocess.run(..., check=False)`. -/
structure ProcResult where
  returncode : ℤ
  stdout : String
  stderr : String

/-- Oracle environment for the download module: file system,
subprocesses, JSON parsing of `pdal info` output. -/
structure DEnv where
  tempId : String
  writeJson : String → List Stage → Except Unit Unit
  isDir : String → Bool
  run : List String → Except Unit ProcResult
  removeFile : String → Except Unit Unit
  pathExists : String → Bool
  getSize : String → Except Unit Nat
  makeDirs : String → Except Unit Unit
  parseSummary : String → Except Unit (Option Nat)

/-- The filename of a stage dict (`stage["filename"]`): present on the
reader and the writer, a `KeyError` elsewhere. -/
def stageFilename : Stage → Option String
  | .reader cfg => some cfg.filename
  | .writer f _ _ => some f
  | _ => Option.none

/-- Embeds `pipeline["pipeline"][-1]["filename"]` as an exception-throwing
access. -/
def lastFilename (p : List Stage) : Except Unit String :=
  match p.getLast? with
  | Option.none => .error ()
  | some s =>
    match stageFilename s with
    | Option.none => .error ()
    | some f => .ok f

/-- The `try` body of `get_point_count`. -/
def gpcBody (env : DEnv) (laz : String) : Except Unit Nat :=
  if ¬ env.pathExists laz then .ok 0
  else do
    let res ← env.run ["pdal", "info", "--summary", laz]
    if res.returncode = 0 then do
      let np ← env.parseSummary res.stdout
      match np with
      | some n => pure n
      | Option.none => pure 0
    else pure 0

/-- Embeds `download.get_point_count`: 0 on any error. -/
def get_point_count (env : DEnv) (laz : String) : Nat :=
  match gpcBody env laz with
  | .ok n => n
  | .error _ => 0

/-- The `try` body of `run_pdal_pipeline`.  The two inner `try` blocks
(saving a pipeline copy, removing the temp file) swallow their own
errors and so are modelled as discarded calls. -/
def rppBody (env : DEnv) (pipeline : List Stage) (output_dir : Option String) :
    Except Unit (Bool × Nat) := do
  let pipeline_file := "temp_pipeline_" ++ env.tempId ++ ".json"
  _ ← env.writeJson pipeline_file pipeline
  match output_dir with
  | some d =>
    if env.isDir d then do
      let output_laz ← lastFilename pipeline
      let _copy := env.writeJson (d ++ "/" ++ output_laz ++ "_pipeline.json") pipeline
      pure ()
    else pure ()
  | Option.none => pure ()
  let res ← env.run ["pdal", "pipeline", pipeline_file]
  let _cleanup := env.removeFile pipeline_file
  let laz ← lastFilename pipeline
  if res.returncode = 0 then
    pure (true, get_point_count env laz)
  else
    pure (false, 0)

/-- Embeds `download.run_pdal_pipeline`: `(False, 0)` on any error; the
`min_points` argument is received but never used. -/
def run_pdal_pipeline (env : DEnv) (pipeline : List Stage) (min_points : Nat)
    (output_dir : Option String) : Bool × Nat :=
  match rppBody env pipeline output_dir with
  | .ok r => r
  | .error _ => (false, 0)

/-! ## `download.download_dataset`, `download.download_lidar_data` -/

/-- The typed view of the configuration keys the download module reads
(with the source's `config.get` defaults). -/
structure DlConfig where
  region : String := "us-west-2"
  resolution : Option ResV := Option.none
  min_points : Nat := 100
  classify_ground : Bool := false
  coordinate_reference_system : Option String := Option.none
  outlier_filter : Bool := false
  outlier_mean_k : ℤ := 12
  outlier_multiplier : ℚ := 11 / 5

/-- The `try` body of `download_dataset`. -/
def ddBody (env : DEnv) (boundary_geojson : Option GeoJson)
    (dataset : DatasetEntry) (output_dir : String) (config : DlConfig)
    (geojson_filename : Option String) : Except Unit (List String) := do
  let dataset_name := dataset.name
  match dataset.s3_url with
  | Option.none => pure []
  | some s3 => do
    let ept_url :=
      "https://s3-" ++ config.region ++ ".amazonaws.com/" ++ s3 ++ "/ept.json"
    _ ← env.makeDirs output_dir
    let output_filename :=
      match geojson_filename with
      | some s => if s ≠ "" then s else dataset_name
      | Option.none => dataset_name
    let output_file := output_dir ++ "/" ++ output_filename ++ ".laz"
    let pipeline := create_pdal_pipeline ept_url output_file boundary_geojson
      Option.none config.resolution config.classify_ground
      config.coordinate_reference_system config.outlier_filter
      config.outlier_mean_k config.outlier_multiplier
    let r := run_pdal_pipeline env pipeline config.min_points (some output_dir)
    if r.1 then
      if env.pathExists output_file then do
        _ ← env.getSize output_file
        pure [output_file]
      else pure []
    else pure []

/-- Embeds `download.download_dataset`: `[]` on any error. -/
def download_dataset (env : DEnv) (boundary_geojson : Option GeoJson)
    (dataset : DatasetEntry) (output_dir : String) (config : DlConfig)
    (geojson_filename : Option String) : List String :=
  match ddBody env boundary_geojson dataset output_dir config geojson_filename with
  | .ok r => r
  | .error _ => []

/-- Embeds `download.download_lidar_data`: `os.makedirs` (which may raise, and
here is not caught) followed by `download_dataset`. -/
def download_lidar_data (env : DEnv) (boundary_geojson : Option GeoJson)
    (dataset : DatasetEntry) (output_dir : String) (config : DlConfig)
    (geojson_filename : Option String) : Except Unit (List String) := do
  _ ← env.makeDirs output_dir
  pure (download_dataset env boundary_geojson dataset output_dir config geojson_filename)

/-! ## `cli.main`: dataset ordering and the two download strategies

The download loops of `cli.main` never inspect geometry: the actual
downloads are external effects, modelled by an oracle
`dl : Nat → DatasetEntry → B → List String` giving the files produced by
the `i`-th call, and `pts : String → Nat` modelling `get_point_count` on
a downloaded file.  The boundary is passed around opaquely (type `B`),
exactly as `cli.main` passes the loaded GeoJSON dict along unchanged. -/

/-! ### CPython `list.sort`

`datasets.sort(key=..., reverse=True)` runs CPython's timsort on the
key values, where `<` on floats leaves `NaN` incomparable (every
comparison with `NaN` is `False`).  The model below follows CPython's
algorithm for fewer than 64 elements, where `minrun` equals the length
and the sort is exactly: detect the initial run (ascending, or strictly
descending then reversed), then binary-insert each remaining element
into the sorted prefix; `reverse=True` reverses the list before and
after the ascending sort.  (For 64 or more elements timsort merges
runs; with a totally ordered key both algorithms produce the same
stable result, which is the only regime the order theorem below
addresses.) -/

/-- Extend an ascending run: take elements while `cur < prev` fails. -/
def ascRunGo (lt : α → α → Bool) : α → List α → List α × List α
  | _, [] => ([], [])
  | prev, x :: rest =>
    if lt x prev then ([], x :: rest)
    else
      let r := ascRunGo lt x rest
      (x :: r.1, r.2)

/-- Extend a strictly descending run: take elements while `cur < prev`. -/
def descRunGo (lt : α → α → Bool) : α → List α → List α × List α
  | _, [] => ([], [])
  | prev, x :: rest =>
    if lt x prev then
      let r := descRunGo lt x rest
      (x :: r.1, r.2)
    else ([], x :: rest)

/-- CPython `count_run`: the maximal initial ascending run, or a
strictly descending one reversed in place. -/
def countRun (lt : α → α → Bool) : List α → List α × List α
  | [] => ([], [])
  | [a] => ([a], [])
  | a0 :: a1 :: rest =>
    if lt a1 a0 then
      let r := descRunGo lt a1 rest
      ((a0 :: a1 :: r.1).reverse, r.2)
    else
      let r := ascRunGo lt a1 rest
      (a0 :: a1 :: r.1, r.2)

/-- The binary search of CPython `binarysort`: find the insertion point
for `x` in `a[l:r]`, moving `r` to `mid` when `x < a[mid]` and `l` past
`mid` otherwise.  The fuel only bounds the iteration count (`r - l`
shrinks every step, so `a.length` suffices); the `getD` default is
never read while `mid < a.length`. -/
def bsGo (lt : α → α → Bool) (x : α) (a : List α) :
    Nat → Nat → Nat → Nat
  | 0, l, _ => l
  | fuel + 1, l, r =>
    if l < r then
      let mid := (l + r) / 2
      if lt x (a.getD mid x) then bsGo lt x a fuel l mid
      else bsGo lt x a fuel (mid + 1) r
    else l

/-- The binary-search insertion point of `x` into `a`. -/
def binSearchPos (lt : α → α → Bool) (x : α) (a : List α) : Nat :=
  bsGo lt x a a.length 0 a.length

/-- Binary insertion of `x` into the sorted prefix. -/
def binInsert (lt : α → α → Bool) (x : α) (a : List α) : List α :=
  a.take (binSearchPos lt x a) ++ x :: a.drop (binSearchPos lt x a)

/-- CPython's ascending stable sort for fewer than `minrun` elements:
the initial run, then binary insertion of the remainder. -/
def pySortAsc (lt : α → α → Bool) (l : List α) : List α :=
  let c := countRun lt l
  c.2.foldl (fun acc x => binInsert lt x acc) c.1

/-- The key of `datasets.sort(key=lambda x: x.get('year', 0), ...)`:
the stored year cell (possibly `NaN`), or 0 when the key is absent. -/
def keyOf (d : DatasetEntry) : YearVal := d.year.getD (.num 0)

/-- Python `<` on two year keys: `False` whenever `NaN` is involved. -/
def yvLt : YearVal → YearVal → Bool
  | .num a, .num b => decide (a < b)
  | _, _ => false

/-- Embeds `datasets.sort(key=lambda x: x.get('year', 0),
reverse=True)`: reverse, sort ascending by the key, reverse. -/
def sortDatasets (l : List DatasetEntry) : List DatasetEntry :=
  (pySortAsc (fun a b => yvLt (keyOf a) (keyOf b)) l.reverse).reverse

/-- The numeric reading of a year cell (`NaN` and absence as 0); on
`NaN`-free entries this is exactly the sort key. -/
def qKeyN (d : DatasetEntry) : Nat :=
  match d.year with
  | some (.num n) => n
  | _ => 0

/-- Embeds `sum([get_point_count(f) for f in downloaded_files])`. -/
def sumPts (pts : String → Nat) (files : List String) : Nat :=
  (files.map pts).sum

/-- The `--most-recent` loop: starting at index `i` with the files
downloaded so far in `acc`.  For `i > 0`, when some files exist and
their summed point count exceeds 1 000 000 the loop breaks; otherwise it
downloads the dataset with the (never-narrowed) `remaining_boundary` and
continues.  Returns the list of download requests made (dataset,
boundary argument) and the final `downloaded_files`. -/
def mrGo {B : Type} (b : B) (dl : Nat → DatasetEntry → B → List String)
    (pts : String → Nat) :
    Nat → List DatasetEntry → List String → List (DatasetEntry × B) × List String
  | _, [], acc => ([], acc)
  | i, d :: rest, acc =>
    if i ≠ 0 ∧ acc ≠ [] ∧ sumPts pts acc > 1000000 then ([], acc)
    else
      let files := dl i d b
      let r := mrGo b dl pts (i + 1) rest (acc ++ files)
      ((d, b) :: r.1, r.2)

/-- The `--most-recent` branch of `cli.main` over an (already sorted)
dataset list. -/
def mostRecentRun {B : Type} (datasets : List DatasetEntry) (b : B)
    (dl : Nat → DatasetEntry → B → List String) (pts : String → Nat) :
    List (DatasetEntry × B) × List String :=
  mrGo b dl pts 0 datasets []

/-- The all-datasets loop (the `else` branch): download from every
dataset in order, collecting every produced file. -/
def allGo {B : Type} (b : B) (dl : Nat → DatasetEntry → B → List String) :
    Nat → List DatasetEntry → List (DatasetEntry × B) × List String
  | _, [] => ([], [])
  | i, d :: rest =>
    let files := dl i d b
    let r := allGo b dl (i + 1) rest
    ((d, b) :: r.1, files ++ r.2)

/-- The non-`--most-recent` branch of `cli.main`. -/
def allRun {B : Type} (datasets : List DatasetEntry) (b : B)
    (dl : Nat → DatasetEntry → B → List String) :
    List (DatasetEntry × B) × List String :=
  allGo b dl 0 datasets

/-! ## Module-level names (for the missing `merge_laz_files`)

The top-level names each module binds, transcribed from the source
files, and Python's `from module import names` semantics: importing a
name the module does not bind raises `ImportError`. -/

/-- Top-level names bound in `download.py` (imports, module globals and
function definitions). -/
def downloadModuleDefs : List String :=
  ["os", "sys", "json", "time", "logging", "tempfile", "subprocess",
   "concurrent", "Path", "io", "np", "List", "Dict", "Any", "Optional",
   "Union", "Tuple", "logger", "laspy", "LASPY_AVAILABLE",
   "add_year_to_laz", "get_ept_bounds", "create_pdal_pipeline",
   "run_pdal_pipeline", "get_point_count", "get_bounds",
   "create_processing_tiles", "download_dataset", "download_lidar_data"]

/-- Top-level names bound in `boundaries.py`. -/
def boundariesModuleDefs : List String :=
  ["os", "re", "json", "logging", "tempfile", "requests", "gpd", "shape",
   "mapping", "List", "Dict", "Any", "Optional", "logger",
   "USGS_LIDAR_BOUNDARIES_URL", "extract_year", "download_usgs_boundaries",
   "boundary_to_gdf", "find_intersecting_datasets",
   "extract_s3_bucket_from_url"]

/-- Top-level names bound in `config.py`. -/
def configModuleDefs : List String :=
  ["os", "json", "logging", "Dict", "Any", "logger", "DEFAULT_CONFIG",
   "load_config", "validate_config"]

/-- Top-level names `cli.py` itself binds (its plain imports, its own
assignments and its function definitions; the names requested by its
three `from .module import ...` lines are bound only if those imports
succeed). -/
def cliModuleDefs : List String :=
  ["os", "sys", "json", "time", "logging", "argparse", "plt", "gpd", "cx",
   "Path", "Optional", "List", "Dict", "Any", "shape", "box", "logger",
   "create_visualization", "main"]

/-- Top-level names bound in `visualization.py`. -/
def visualizationModuleDefs : List String :=
  ["os", "logging", "pd", "plt", "gpd", "cx", "Patch", "Line2D", "shape",
   "unary_union", "List", "Dict", "Any", "Optional", "Tuple", "logger",
   "create_coverage_map", "create_dataset_overlap_map",
   "verify_dataset_coverage"]

/-- Top-level names bound in `__main__.py`. -/
def mainModuleDefs : List String :=
  ["main"]

/-- The names `cli.py` line 24 imports from the download module. -/
def cliImportsFromDownload : List String :=
  ["download_lidar_data", "merge_laz_files", "get_point_count"]

/-- Embeds `from module import n1, n2, ...`: succeeds only when the module
binds every requested name. -/
def fromImport (moduleNames : List String) (requested : List String) :
    Except String Unit :=
  if requested.all (fun n => moduleNames.contains n) then .ok ()
  else .error "ImportError"

/-! ## Structured view of the pipeline builder -/

/-- The reprojection stages the spec describes: one `filters.reprojection`
stage exactly when the supplied code is a bare digit string or
`EPSG:` followed by digits. -/
def reprojStages (crs : Option String) : List Stage :=
  match crs with
  | some c =>
    if pyIsDigit c || (c.startsWith "EPSG:" && pyIsDigit (c.drop 5)) then
      [Stage.reprojection (if c.startsWith "EPSG:" then c else "EPSG:" ++ c)]
    else []
  | Option.none => []

/-- The ground-classification stages: `filters.assign` then
`filters.smrf`. -/
def classifyStages (classify_ground : Bool) : List Stage :=
  if classify_ground then [assignStage, smrfStage] else []

/-- The outlier stages: statistical `filters.outlier` then a
`filters.range` excluding classification 7. -/
def outlierStages (outlier_filter : Bool) (mean_k : ℤ) (multiplier : ℚ) :
    List Stage :=
  if outlier_filter then
    [Stage.outlier "statistical" mean_k multiplier,
     Stage.range "Classification![7:7]"]
  else []

/-- The polygon parameter the reader ends up with. -/
def expectedPolygon (bj? : Option GeoJson) : Option GeomV :=
  match bj? with
  | some bj => extractPipelineGeom bj
  | Option.none => Option.none

/-- The bounds parameter the reader ends up with: only consulted when no
boundary GeoJSON was supplied at all. -/
def expectedBounds (bj? : Option GeoJson) (bounds : Option (ℚ × ℚ × ℚ × ℚ)) :
    Option (ℚ × ℚ × ℚ × ℚ) :=
  match bj? with
  | some _ => Option.none
  | Option.none => bounds

/-- The resolution parameter the reader ends up with. -/
def expectedResolution (res : Option ResV) : Option ℚ :=
  match res with
  | some (.num q) => some q
  | _ => Option.none

/-- The reprojection step of the builder appends `reprojStages crs`. -/
theorem reproj_step (stages : List Stage) (crs : Option String) :
    (match crs with
     | some c =>
       if pyIsDigit c || (c.startsWith "EPSG:" && pyIsDigit (c.drop 5)) then
         stages ++
           [Stage.reprojection (if c.startsWith "EPSG:" then c else "EPSG:" ++ c)]
       else stages
     | Option.none => stages) = stages ++ reprojStages crs := by
  rcases crs with _ | c
  · simp [reprojStages]
  · simp only [reprojStages]
    split_ifs <;> simp

/-- Conditional append pushed to the right operand. -/
theorem if_append_step (c : Bool) (stages x : List Stage) :
    (if c then stages ++ x else stages) = stages ++ (if c then x else []) := by
  cases c <;> simp

/-- Structural characterization of `create_pdal_pipeline`: reader first
(with the polygon/bounds/resolution selection), then the optional stage
groups in their fixed order, then the writer. -/
theorem cpp_eq (input_url output_laz : String) (bj? : Option GeoJson)
    (bounds : Option (ℚ × ℚ × ℚ × ℚ)) (res : Option ResV)
    (classify_ground : Bool) (crs : Option String) (outlier_filter : Bool)
    (mean_k : ℤ) (multiplier : ℚ) :
    create_pdal_pipeline input_url output_laz bj? bounds res classify_ground
        crs outlier_filter mean_k multiplier =
      Stage.reader
          { filename := input_url
            polygon := expectedPolygon bj?
            bounds := expectedBounds bj? bounds
            resolution := expectedResolution res } ::
        (reprojStages crs ++ classifyStages classify_ground ++
          outlierStages outlier_filter mean_k multiplier ++
          [Stage.writer output_laz 4 8]) := by
  unfold create_pdal_pipeline
  simp only [reproj_step]
  simp only [if_append_step]
  simp only [classifyStages, outlierStages, expectedPolygon, expectedBounds,
    expectedResolution]
  rcases bj? with _ | bj
  · rcases bounds with _ | b <;>
      rcases res with _ | _ | q | _ <;>
      simp [setHeadResolution, List.append_assoc]
  · rcases hg : extractPipelineGeom bj with _ | g <;> simp only [hg] <;>
      rcases res with _ | _ | q | _ <;>
      simp [setHeadResolution, List.append_assoc]

/-- The `polygon` parameter of the pipeline's first stage (when that
stage is the reader). -/
def readerPolygon? (p : List Stage) : Option GeomV :=
  match p with
  | .reader c :: _ => c.polygon
  | _ => Option.none

/-- The `bounds` parameter of the pipeline's first stage. -/
def readerBounds? (p : List Stage) : Option (ℚ × ℚ × ℚ × ℚ) :=
  match p with
  | .reader c :: _ => c.bounds
  | _ => Option.none

/-! ## Claim theorems -/

/-- C6: for every combination of options, `create_pdal_pipeline` builds
a pipeline whose first stage is the EPT reader and whose last stage is
the LAS writer, with the requested operations as dedicated stages in the
fixed order: reprojection (when a valid EPSG code is supplied), then
assign + SMRF (when `classify_ground`), then statistical outlier + a
range filter excluding classification 7 (when `outlier_filter`). -/
theorem pipeline_stage_order (input_url output_laz : String)
    (bj? : Option GeoJson) (bounds : Option (ℚ × ℚ × ℚ × ℚ))
    (res : Option ResV) (classify_ground : Bool) (crs : Option String)
    (outlier_filter : Bool) (mean_k : ℤ) (multiplier : ℚ) :
    ∃ rcfg : ReaderCfg,
      rcfg.filename = input_url ∧
      create_pdal_pipeline input_url output_laz bj? bounds res classify_ground
          crs outlier_filter mean_k multiplier =
        Stage.reader rcfg ::
          (reprojStages crs ++ classifyStages classify_ground ++
            outlierStages outlier_filter mean_k multiplier ++
            [Stage.writer output_laz 4 8]) ∧
      (create_pdal_pipeline input_url output_laz bj? bounds res classify_ground
          crs outlier_filter mean_k multiplier).head? =
        some (Stage.reader rcfg) ∧
      (create_pdal_pipeline input_url output_laz bj? bounds res classify_ground
          crs outlier_filter mean_k multiplier).getLast? =
        some (Stage.writer output_laz 4 8) := by
  refine ⟨_, rfl, cpp_eq input_url output_laz bj? bounds res classify_ground
    crs outlier_filter mean_k multiplier, ?_, ?_⟩
  · rw [cpp_eq]
    rfl
  · rw [cpp_eq]
    have h : Stage.reader
        { filename := input_url, polygon := expectedPolygon bj?,
          bounds := expectedBounds bj? bounds,
          resolution := expectedResolution res } ::
          (reprojStages crs ++ classifyStages classify_ground ++
            outlierStages outlier_filter mean_k multiplier ++
            [Stage.writer output_laz 4 8]) =
        (Stage.reader
          { filename := input_url, polygon := expectedPolygon bj?,
            bounds := expectedBounds bj? bounds,
            resolution := expectedResolution res } ::
          (reprojStages crs ++ classifyStages classify_ground ++
            outlierStages outlier_filter mean_k multiplier)) ++
          [Stage.writer output_laz 4 8] := by
      simp [List.append_assoc]
    rw [h, List.getLast?_concat]

/-- C7 counterexample: a supplied boundary GeoJSON from which no polygon
can be extracted (a bare `LineString`) together with explicit numeric
bounds yields a reader with **neither** a `polygon` nor a `bounds`
parameter — the `elif bounds:` branch is unreachable when a boundary
dict was supplied, refuting the claim that the bounds are then used. -/
theorem bounds_ignored_when_boundary_unextractable :
    readerPolygon? (create_pdal_pipeline "u" "o"
        (some (.geometry ⟨.lineString, [((0 : ℤ), (0 : ℤ))]⟩))
        (some ((0 : ℚ), (0 : ℚ), (1 : ℚ), (1 : ℚ))) Option.none false
        Option.none false 12 (11 / 5)) = Option.none ∧
    readerBounds? (create_pdal_pipeline "u" "o"
        (some (.geometry ⟨.lineString, [((0 : ℤ), (0 : ℤ))]⟩))
        (some ((0 : ℚ), (0 : ℚ), (1 : ℚ), (1 : ℚ))) Option.none false
        Option.none false 12 (11 / 5)) = Option.none := by
  constructor <;> rfl

/-- C7 (amended): a polygon contained in the boundary GeoJSON (first
feature of a `FeatureCollection`, a `Feature`, or a bare
`Polygon`/`MultiPolygon`) is placed exactly in the reader's `polygon`
parameter; the numeric bounds are used only when **no** boundary GeoJSON
is supplied at all; when a boundary is supplied but no geometry can be
extracted from it, neither parameter is set. -/
theorem reader_polygon_and_bounds_selection (input_url output_laz : String)
    (bounds : Option (ℚ × ℚ × ℚ × ℚ)) (res : Option ResV)
    (classify_ground : Bool) (crs : Option String) (outlier_filter : Bool)
    (mean_k : ℤ) (multiplier : ℚ) :
    (∀ (g : GeomV) (fs : List (Option GeomV)),
      readerPolygon? (create_pdal_pipeline input_url output_laz
          (some (.featureCollection (some g :: fs))) bounds res
          classify_ground crs outlier_filter mean_k multiplier) = some g) ∧
    (∀ g : GeomV,
      readerPolygon? (create_pdal_pipeline input_url output_laz
          (some (.feature (some g))) bounds res classify_ground crs
          outlier_filter mean_k multiplier) = some g) ∧
    (∀ g : GeomV, g.kind = .polygon ∨ g.kind = .multiPolygon →
      readerPolygon? (create_pdal_pipeline input_url output_laz
          (some (.geometry g)) bounds res classify_ground crs outlier_filter
          mean_k multiplier) = some g) ∧
    (∀ b : ℚ × ℚ × ℚ × ℚ,
      readerBounds? (create_pdal_pipeline input_url output_laz Option.none
          (some b) res classify_ground crs outlier_filter mean_k multiplier) =
        some b) ∧
    (∀ bj : GeoJson, extractPipelineGeom bj = Option.none →
      readerPolygon? (create_pdal_pipeline input_url output_laz (some bj)
          bounds res classify_ground crs outlier_filter mean_k multiplier) =
          Option.none ∧
      readerBounds? (create_pdal_pipeline input_url output_laz (some bj)
          bounds res classify_ground crs outlier_filter mean_k multiplier) =
          Option.none) := by
  refine ⟨?_, ?_, ?_, ?_, ?_⟩
  · intro g fs
    rw [cpp_eq]
    rfl
  · intro g
    rw [cpp_eq]
    rfl
  · intro g hk
    rw [cpp_eq]
    simp [readerPolygon?, expectedPolygon, extractPipelineGeom, hk]
  · intro b
    rw [cpp_eq]
    rfl
  · intro bj hbj
    rw [cpp_eq]
    simp [readerPolygon?, readerBounds?, expectedPolygon, expectedBounds, hbj]

/-- C7 witness: the amended theorem applied at concrete inputs. -/
theorem reader_polygon_and_bounds_selection_witness :
    readerPolygon? (create_pdal_pipeline "u" "o"
        (some (.geometry ⟨.polygon, [((0 : ℤ), (0 : ℤ))]⟩)) Option.none
        Option.none false Option.none false 12 (11 / 5)) =
      some ⟨.polygon, [((0 : ℤ), (0 : ℤ))]⟩ ∧
    readerBounds? (create_pdal_pipeline "u" "o" (some .otherDoc)
        (some ((0 : ℚ), (0 : ℚ), (1 : ℚ), (1 : ℚ))) Option.none false
        Option.none false 12 (11 / 5)) = Option.none :=
  ⟨(reader_polygon_and_bounds_selection "u" "o" Option.none Option.none false
      Option.none false 12 (11 / 5)).2.2.1 ⟨.polygon, [((0 : ℤ), (0 : ℤ))]⟩
      (Or.inl rfl),
   ((reader_polygon_and_bounds_selection "u" "o"
      (some ((0 : ℚ), (0 : ℚ), (1 : ℚ), (1 : ℚ))) Option.none false
      Option.none false 12 (11 / 5)).2.2.2.2 .otherDoc rfl).2⟩

/-- C10: the result of `run_pdal_pipeline` does not depend on its
`min_points` argument in any way — the parameter is received and never
read, so success is decided solely by the subprocess exit code and a run
with fewer than `min_points` points (even zero) is still a success. -/
theorem run_pdal_pipeline_ignores_min_points (env : DEnv) (p : List Stage)
    (m1 m2 : Nat) (od : Option String) :
    run_pdal_pipeline env p m1 od = run_pdal_pipeline env p m2 od := rfl

/-- C3: `cli.py` imports `merge_laz_files` from the download module, but
no module of the source binds a top-level name `merge_laz_files`, so the
`from .download import ...` statement raises `ImportError` and the
multi-file merge branch has no definition to call. -/
theorem merge_laz_files_missing :
    cliImportsFromDownload.contains "merge_laz_files" = true ∧
    downloadModuleDefs.contains "merge_laz_files" = false ∧
    boundariesModuleDefs.contains "merge_laz_files" = false ∧
    configModuleDefs.contains "merge_laz_files" = false ∧
    cliModuleDefs.contains "merge_laz_files" = false ∧
    visualizationModuleDefs.contains "merge_laz_files" = false ∧
    mainModuleDefs.contains "merge_laz_files" = false ∧
    fromImport downloadModuleDefs cliImportsFromDownload =
      Except.error "ImportError" := by
  refine ⟨rfl, rfl, rfl, rfl, rfl, rfl, rfl, rfl⟩

/-! ## Lemmas on the two download loops -/

theorem mrGo_boundary {B : Type} (b : B) (dl : Nat → DatasetEntry → B → List String)
    (pts : String → Nat) :
    ∀ (ds : List DatasetEntry) (i : Nat) (acc : List String),
      ∀ r ∈ (mrGo b dl pts i ds acc).1, r.2 = b := by
  intro ds
  induction ds with
  | nil => intro i acc r hr; simp [mrGo] at hr
  | cons d tail ih =>
    intro i acc r hr
    by_cases hc : i ≠ 0 ∧ acc ≠ [] ∧ sumPts pts acc > 1000000
    · simp [mrGo, hc] at hr
    · simp only [mrGo, if_neg hc, List.mem_cons] at hr
      rcases hr with rfl | hr
      · rfl
      · exact ih (i + 1) (acc ++ dl i d b) r hr

theorem mrGo_front {B : Type} (b : B) (dl : Nat → DatasetEntry → B → List String)
    (pts : String → Nat) :
    ∀ (ds : List DatasetEntry) (i : Nat) (acc : List String),
      ∃ rest, (mrGo b dl pts i ds acc).1.map Prod.fst ++ rest = ds := by
  intro ds
  induction ds with
  | nil => intro i acc; exact ⟨[], by simp [mrGo]⟩
  | cons d tail ih =>
    intro i acc
    by_cases hc : i ≠ 0 ∧ acc ≠ [] ∧ sumPts pts acc > 1000000
    · exact ⟨d :: tail, by simp [mrGo, hc]⟩
    · obtain ⟨rest, hrest⟩ := ih (i + 1) (acc ++ dl i d b)
      exact ⟨rest, by simp [mrGo, if_neg hc, hrest]⟩

theorem mrGo_break {B : Type} (b : B) (dl : Nat → DatasetEntry → B → List String)
    (pts : String → Nat) :
    ∀ (ds : List DatasetEntry) (i : Nat) (acc : List String),
      (mrGo b dl pts i ds acc).1.length < ds.length →
        1000000 < sumPts pts (mrGo b dl pts i ds acc).2 := by
  intro ds
  induction ds with
  | nil => intro i acc h; simp [mrGo] at h
  | cons d tail ih =>
    intro i acc h
    by_cases hc : i ≠ 0 ∧ acc ≠ [] ∧ sumPts pts acc > 1000000
    · simp only [mrGo, if_pos hc]
      exact hc.2.2
    · simp only [mrGo, if_neg hc, List.length_cons, List.length_map,
        Nat.add_lt_add_iff_right] at h ⊢
      exact ih (i + 1) (acc ++ dl i d b) h

theorem allGo_spec {B : Type} (b : B) (dl : Nat → DatasetEntry → B → List String) :
    ∀ (ds : List DatasetEntry) (i : Nat),
      (allGo b dl i ds).1 = ds.map (fun d => (d, b)) ∧
      (allGo b dl i ds).2 =
        ((ds.enumFrom i).map (fun p => dl p.1 p.2 b)).flatten := by
  intro ds
  induction ds with
  | nil => intro i; simp [allGo]
  | cons d tail ih =>
    intro i
    refine ⟨?_, ?_⟩ <;>
      simp [allGo, (ih (i + 1)).1, (ih (i + 1)).2]

/-! ### The CPython sort permutes its input (any comparator) -/

theorem ascRunGo_append (lt : α → α → Bool) :
    ∀ (rest : List α) (prev : α),
      (ascRunGo lt prev rest).1 ++ (ascRunGo lt prev rest).2 = rest := by
  intro rest
  induction rest with
  | nil => intro prev; rfl
  | cons x r ih =>
    intro prev
    simp only [ascRunGo]
    split_ifs
    · rfl
    · simp [ih x]

theorem descRunGo_append (lt : α → α → Bool) :
    ∀ (rest : List α) (prev : α),
      (descRunGo lt prev rest).1 ++ (descRunGo lt prev rest).2 = rest := by
  intro rest
  induction rest with
  | nil => intro prev; rfl
  | cons x r ih =>
    intro prev
    simp only [descRunGo]
    split_ifs
    · simp [ih x]
    · rfl

theorem countRun_perm (lt : α → α → Bool) (l : List α) :
    ((countRun lt l).1 ++ (countRun lt l).2).Perm l := by
  match l with
  | [] => simp [countRun]
  | [a] => simp [countRun]
  | a0 :: a1 :: rest =>
    simp only [countRun]
    split_ifs
    · refine ((List.reverse_perm _).append_right _).trans (List.Perm.of_eq ?_)
      simp [descRunGo_append]
    · exact List.Perm.of_eq (by simp [ascRunGo_append])

theorem binInsert_perm (lt : α → α → Bool) (x : α) (a : List α) :
    (binInsert lt x a).Perm (x :: a) := by
  unfold binInsert
  refine List.perm_middle.trans (List.Perm.of_eq ?_)
  rw [List.take_append_drop]

theorem foldl_binInsert_perm (lt : α → α → Bool) :
    ∀ (rest acc : List α),
      (rest.foldl (fun acc x => binInsert lt x acc) acc).Perm (rest ++ acc) := by
  intro rest
  induction rest with
  | nil => intro acc; simp
  | cons x r ih =>
    intro acc
    refine ((ih (binInsert lt x acc)).trans ?_)
    refine ((binInsert_perm lt x acc).append_left r).trans ?_
    exact List.perm_middle

theorem pySortAsc_perm (lt : α → α → Bool) (l : List α) :
    (pySortAsc lt l).Perm l := by
  unfold pySortAsc
  exact (foldl_binInsert_perm lt _ _).trans
    (List.perm_append_comm.trans (countRun_perm lt l))

theorem sortDatasets_perm (l : List DatasetEntry) : (sortDatasets l).Perm l := by
  unfold sortDatasets
  exact (List.reverse_perm _).trans
    ((pySortAsc_perm _ l.reverse).trans (List.reverse_perm l))

/-! ### The CPython sort orders totally comparable keys

With a comparator `fun a b => decide (k a < k b)` for a `Nat`-valued
key — the numeric-years regime of the CLI sort — the run detection and
the binary insertions produce a list that is non-decreasing in `k`. -/

theorem getD_of_lt {a : List α} {i : Nat} (h : i < a.length) (d : α) :
    a.getD i d = a.get ⟨i, h⟩ := by
  simp [List.getD_eq_getElem?_getD, List.getElem?_eq_getElem h]

theorem ascRunGo_sorted (k : α → Nat) :
    ∀ (rest : List α) (prev : α),
      (prev :: (ascRunGo (fun a b => decide (k a < k b)) prev rest).1).Pairwise
        (fun a b => k a ≤ k b) := by
  intro rest
  induction rest with
  | nil => intro prev; simp [ascRunGo]
  | cons x r ih =>
    intro prev
    simp only [ascRunGo]
    split_ifs with hx
    · simp
    · simp only [decide_eq_true_eq] at hx
      refine List.pairwise_cons.mpr ⟨?_, ih x⟩
      intro y hy
      rcases List.mem_cons.mp hy with rfl | hy'
      · omega
      · have := (List.pairwise_cons.mp (ih x)).1 y hy'
        omega

theorem descRunGo_sorted (k : α → Nat) :
    ∀ (rest : List α) (prev : α),
      (prev :: (descRunGo (fun a b => decide (k a < k b)) prev rest).1).Pairwise
        (fun a b => k b < k a) := by
  intro rest
  induction rest with
  | nil => intro prev; simp [descRunGo]
  | cons x r ih =>
    intro prev
    simp only [descRunGo]
    split_ifs with hx
    · simp only [decide_eq_true_eq] at hx
      refine List.pairwise_cons.mpr ⟨?_, ih x⟩
      intro y hy
      rcases List.mem_cons.mp hy with rfl | hy'
      · omega
      · have := (List.pairwise_cons.mp (ih x)).1 y hy'
        omega
    · simp

theorem countRun_sorted (k : α → Nat) (l : List α) :
    ((countRun (fun a b => decide (k a < k b)) l).1).Pairwise
      (fun a b => k a ≤ k b) := by
  match l with
  | [] => simp [countRun]
  | [a] => simp [countRun]
  | a0 :: a1 :: rest =>
    simp only [countRun]
    split_ifs with h01
    · simp only [decide_eq_true_eq] at h01
      have hd := descRunGo_sorted k rest a1
      have hall : (a0 :: a1 :: (descRunGo (fun a b => decide (k a < k b)) a1
          rest).1).Pairwise (fun a b => k b < k a) := by
        refine List.pairwise_cons.mpr ⟨?_, hd⟩
        intro y hy
        rcases List.mem_cons.mp hy with rfl | hy'
        · omega
        · have := (List.pairwise_cons.mp hd).1 y hy'
          omega
      rw [List.pairwise_reverse]
      exact hall.imp (by intro a b h; omega)
    · simp only [decide_eq_true_eq] at h01
      have ha := ascRunGo_sorted k rest a1
      refine List.pairwise_cons.mpr ⟨?_, ha⟩
      intro y hy
      rcases List.mem_cons.mp hy with rfl | hy'
      · omega
      · have := (List.pairwise_cons.mp ha).1 y hy'
        omega

theorem bsGo_spec (k : α → Nat) (x : α) (a : List α)
    (hs : a.Pairwise (fun a b => k a ≤ k b)) :
    ∀ (fuel l r : Nat), l ≤ r → r ≤ a.length → r - l ≤ fuel →
      (∀ (i : Nat) (hi : i < a.length), i < l → k (a.get ⟨i, hi⟩) ≤ k x) →
      (∀ (i : Nat) (hi : i < a.length), r ≤ i → k x < k (a.get ⟨i, hi⟩)) →
      (bsGo (fun a b => decide (k a < k b)) x a fuel l r ≤ a.length ∧
       (∀ (i : Nat) (hi : i < a.length),
          i < bsGo (fun a b => decide (k a < k b)) x a fuel l r →
            k (a.get ⟨i, hi⟩) ≤ k x) ∧
       (∀ (i : Nat) (hi : i < a.length),
          bsGo (fun a b => decide (k a < k b)) x a fuel l r ≤ i →
            k x < k (a.get ⟨i, hi⟩))) := by
  have hpw := List.pairwise_iff_get.mp hs
  intro fuel
  induction fuel with
  | zero =>
    intro l r hlr hr hfuel hleft hright
    have hl : l = r := by omega
    subst hl
    exact ⟨by simpa [bsGo] using le_trans hlr hr,
      fun i hi h => hleft i hi (by simpa [bsGo] using h),
      fun i hi h => hright i hi (by simpa [bsGo] using h)⟩
  | succ fuel ih =>
    intro l r hlr hr hfuel hleft hright
    by_cases hlt : l < r
    · have hmidr : (l + r) / 2 < r := by omega
      have hmidl : l ≤ (l + r) / 2 := by omega
      have hmidlen : (l + r) / 2 < a.length := by omega
      have hgetD : a.getD ((l + r) / 2) x = a.get ⟨(l + r) / 2, hmidlen⟩ :=
        getD_of_lt hmidlen x
      simp only [bsGo, if_pos hlt]
      by_cases hcmp : k x < k (a.get ⟨(l + r) / 2, hmidlen⟩)
      · rw [if_pos (by rw [getD_of_lt hmidlen x]; exact decide_eq_true hcmp)]
        refine ih l ((l + r) / 2) hmidl (by omega) (by omega) hleft ?_
        intro i hi hge
        rcases Nat.eq_or_lt_of_le hge with rfl | hgt
        · exact hcmp
        · have := hpw ⟨(l + r) / 2, hmidlen⟩ ⟨i, hi⟩ hgt
          omega
      · rw [if_neg (by
            rw [getD_of_lt hmidlen x]
            simp only [decide_eq_true_eq]
            exact hcmp)]
        refine ih ((l + r) / 2 + 1) r (by omega) hr (by omega) ?_ hright
        intro i hi hl2
        have hcmp' : k (a.get ⟨(l + r) / 2, hmidlen⟩) ≤ k x := by omega
        by_cases hil : i < l
        · exact hleft i hi hil
        · by_cases him : i < (l + r) / 2
          · have := hpw ⟨i, hi⟩ ⟨(l + r) / 2, hmidlen⟩ him
            omega
          · have : i = (l + r) / 2 := by omega
            subst this
            exact hcmp'
    · have hl : l = r := by omega
      subst hl
      exact ⟨by simpa [bsGo, hlt] using le_trans hlr hr,
        fun i hi h => hleft i hi (by simpa [bsGo, hlt] using h),
        fun i hi h => hright i hi (by simpa [bsGo, hlt] using h)⟩

theorem binSearchPos_spec (k : α → Nat) (x : α) (a : List α)
    (hs : a.Pairwise (fun a b => k a ≤ k b)) :
    binSearchPos (fun a b => decide (k a < k b)) x a ≤ a.length ∧
    (∀ (i : Nat) (hi : i < a.length),
      i < binSearchPos (fun a b => decide (k a < k b)) x a →
        k (a.get ⟨i, hi⟩) ≤ k x) ∧
    (∀ (i : Nat) (hi : i < a.length),
      binSearchPos (fun a b => decide (k a < k b)) x a ≤ i →
        k x < k (a.get ⟨i, hi⟩)) := by
  unfold binSearchPos
  exact bsGo_spec k x a hs a.length 0 a.length (Nat.zero_le _) le_rfl
    (by omega) (fun i hi h => absurd h (Nat.not_lt_zero i))
    (fun i hi h => absurd hi (Nat.not_lt.mpr h))

theorem binInsert_sorted (k : α → Nat) (x : α) (a : List α)
    (hs : a.Pairwise (fun a b => k a ≤ k b)) :
    (binInsert (fun a b => decide (k a < k b)) x a).Pairwise
      (fun a b => k a ≤ k b) := by
  obtain ⟨hplen, hL, hR⟩ := binSearchPos_spec k x a hs
  unfold binInsert
  rw [List.pairwise_append]
  have hmem_take : ∀ y ∈ a.take (binSearchPos (fun a b => decide (k a < k b)) x a),
      k y ≤ k x := by
    intro y hy
    obtain ⟨⟨i, hi⟩, hget⟩ := List.mem_iff_get.mp hy
    have hi' : i < a.length := lt_of_lt_of_le hi (by simp [List.length_take])
    have hip : i < binSearchPos (fun a b => decide (k a < k b)) x a := by
      have := hi
      simp only [List.length_take] at this
      omega
    have : y = a.get ⟨i, hi'⟩ := by
      rw [← hget]
      simp [List.get_take']
    rw [this]
    exact hL i hi' hip
  have hmem_drop : ∀ y ∈ a.drop (binSearchPos (fun a b => decide (k a < k b)) x a),
      k x < k y := by
    intro y hy
    obtain ⟨⟨j, hj⟩, hget⟩ := List.mem_iff_get.mp hy
    have hj' : binSearchPos (fun a b => decide (k a < k b)) x a + j < a.length := by
      have := hj
      simp only [List.length_drop] at this
      omega
    have : y = a.get ⟨binSearchPos (fun a b => decide (k a < k b)) x a + j, hj'⟩ := by
      rw [← hget]
      simp [List.get_drop']
    rw [this]
    exact hR _ hj' (Nat.le_add_right _ _)
  refine ⟨hs.sublist (List.take_sublist _ _), ?_, ?_⟩
  · refine List.pairwise_cons.mpr ⟨fun y hy => le_of_lt (hmem_drop y hy),
      hs.sublist (List.drop_sublist _ _)⟩
  · intro u hu v hv
    rcases List.mem_cons.mp hv with rfl | hv'
    · exact hmem_take u hu
    · exact le_trans (hmem_take u hu) (le_of_lt (hmem_drop v hv'))

theorem foldl_binInsert_sorted (k : α → Nat) :
    ∀ (rest acc : List α), acc.Pairwise (fun a b => k a ≤ k b) →
      (rest.foldl (fun acc x => binInsert (fun a b => decide (k a < k b)) x acc)
        acc).Pairwise (fun a b => k a ≤ k b) := by
  intro rest
  induction rest with
  | nil => intro acc h; exact h
  | cons x r ih =>
    intro acc h
    exact ih _ (binInsert_sorted k x acc h)

theorem pySortAsc_sorted (k : α → Nat) (l : List α) :
    (pySortAsc (fun a b => decide (k a < k b)) l).Pairwise
      (fun a b => k a ≤ k b) := by
  unfold pySortAsc
  exact foldl_binInsert_sorted k _ _ (countRun_sorted k l)

/-! ### The sort only compares list members

Replacing the comparator by one that agrees on the elements of the
input list leaves the algorithm's output unchanged: every comparison
the sort performs is between members of the input. -/

theorem ascRunGo_congr (lt lt' : α → α → Bool) (S : List α)
    (h : ∀ a ∈ S, ∀ b ∈ S, lt a b = lt' a b) :
    ∀ (rest : List α) (prev : α), prev ∈ S → (∀ y ∈ rest, y ∈ S) →
      ascRunGo lt prev rest = ascRunGo lt' prev rest := by
  intro rest
  induction rest with
  | nil => intro prev _ _; rfl
  | cons x r ih =>
    intro prev hprev hrest
    have hx : x ∈ S := hrest x (List.mem_cons_self _ _)
    have hr : ∀ y ∈ r, y ∈ S := fun y hy => hrest y (List.mem_cons_of_mem _ hy)
    simp only [ascRunGo, h x hx prev hprev, ih x hx hr]

theorem descRunGo_congr (lt lt' : α → α → Bool) (S : List α)
    (h : ∀ a ∈ S, ∀ b ∈ S, lt a b = lt' a b) :
    ∀ (rest : List α) (prev : α), prev ∈ S → (∀ y ∈ rest, y ∈ S) →
      descRunGo lt prev rest = descRunGo lt' prev rest := by
  intro rest
  induction rest with
  | nil => intro prev _ _; rfl
  | cons x r ih =>
    intro prev hprev hrest
    have hx : x ∈ S := hrest x (List.mem_cons_self _ _)
    have hr : ∀ y ∈ r, y ∈ S := fun y hy => hrest y (List.mem_cons_of_mem _ hy)
    simp only [descRunGo, h x hx prev hprev, ih x hx hr]

theorem countRun_congr (lt lt' : α → α → Bool) (S : List α)
    (h : ∀ a ∈ S, ∀ b ∈ S, lt a b = lt' a b) (l : List α)
    (hl : ∀ y ∈ l, y ∈ S) : countRun lt l = countRun lt' l := by
  match l with
  | [] => rfl
  | [a] => rfl
  | a0 :: a1 :: rest =>
    have h0 : a0 ∈ S := hl a0 (List.mem_cons_self _ _)
    have h1 : a1 ∈ S := hl a1 (List.mem_cons_of_mem _ (List.mem_cons_self _ _))
    have hr : ∀ y ∈ rest, y ∈ S := fun y hy =>
      hl y (List.mem_cons_of_mem _ (List.mem_cons_of_mem _ hy))
    simp only [countRun, h a1 h1 a0 h0, descRunGo_congr lt lt' S h rest a1 h1 hr,
      ascRunGo_congr lt lt' S h rest a1 h1 hr]

theorem getD_mem_of (a : List α) (S : List α) (x : α) (i : Nat)
    (ha : ∀ y ∈ a, y ∈ S) (hx : x ∈ S) : a.getD i x ∈ S := by
  by_cases hi : i < a.length
  · rw [getD_of_lt hi]
    exact ha _ (a.get_mem _ _)
  · rw [List.getD_eq_default _ _ (by omega)]
    exact hx

theorem bsGo_congr (lt lt' : α → α → Bool) (S : List α)
    (h : ∀ a ∈ S, ∀ b ∈ S, lt a b = lt' a b) (x : α) (a : List α)
    (hx : x ∈ S) (ha : ∀ y ∈ a, y ∈ S) :
    ∀ (fuel l r : Nat), bsGo lt x a fuel l r = bsGo lt' x a fuel l r := by
  intro fuel
  induction fuel with
  | zero => intro l r; rfl
  | succ fuel ih =>
    intro l r
    simp only [bsGo, h x hx _ (getD_mem_of a S x _ ha hx), ih]

theorem binInsert_congr (lt lt' : α → α → Bool) (S : List α)
    (h : ∀ a ∈ S, ∀ b ∈ S, lt a b = lt' a b) (x : α) (a : List α)
    (hx : x ∈ S) (ha : ∀ y ∈ a, y ∈ S) :
    binInsert lt x a = binInsert lt' x a := by
  unfold binInsert binSearchPos
  rw [bsGo_congr lt lt' S h x a hx ha]

theorem foldl_binInsert_congr (lt lt' : α → α → Bool) (S : List α)
    (h : ∀ a ∈ S, ∀ b ∈ S, lt a b = lt' a b) :
    ∀ (rest acc : List α), (∀ y ∈ rest, y ∈ S) → (∀ y ∈ acc, y ∈ S) →
      rest.foldl (fun acc x => binInsert lt x acc) acc =
        rest.foldl (fun acc x => binInsert lt' x acc) acc := by
  intro rest
  induction rest with
  | nil => intro acc _ _; rfl
  | cons x r ih =>
    intro acc hrest hacc
    have hx : x ∈ S := hrest x (List.mem_cons_self _ _)
    have hr : ∀ y ∈ r, y ∈ S := fun y hy => hrest y (List.mem_cons_of_mem _ hy)
    have hacc' : ∀ y ∈ binInsert lt x acc, y ∈ S := by
      intro y hy
      rcases List.mem_cons.mp ((binInsert_perm lt x acc).mem_iff.mp hy) with
        rfl | hy'
      · exact hx
      · exact hacc y hy'
    simp only [List.foldl_cons, binInsert_congr lt lt' S h x acc hx hacc]
    rw [← binInsert_congr lt lt' S h x acc hx hacc] at *
    exact ih _ hr hacc'

theorem pySortAsc_congr (lt lt' : α → α → Bool) (l : List α)
    (h : ∀ a ∈ l, ∀ b ∈ l, lt a b = lt' a b) :
    pySortAsc lt l = pySortAsc lt' l := by
  unfold pySortAsc
  rw [countRun_congr lt lt' l h l (fun y hy => hy)]
  have hperm := countRun_perm lt' l
  have hrun : ∀ y ∈ (countRun lt' l).1, y ∈ l := fun y hy =>
    hperm.mem_iff.mp (List.mem_append.mpr (Or.inl hy))
  have hrest : ∀ y ∈ (countRun lt' l).2, y ∈ l := fun y hy =>
    hperm.mem_iff.mp (List.mem_append.mpr (Or.inr hy))
  exact foldl_binInsert_congr lt lt' l h _ _ hrest hrun

/-- On entries whose year cells are all numeric, the CLI sort is ordered:
its output is non-increasing in the numeric year key. -/
theorem sortDatasets_sorted_of_numeric (l : List DatasetEntry)
    (h : ∀ d ∈ l, d.year ≠ some .nan) :
    List.Sorted (fun a d => qKeyN d ≤ qKeyN a) (sortDatasets l) := by
  unfold sortDatasets
  have hagree : ∀ a ∈ l.reverse, ∀ b ∈ l.reverse,
      (yvLt (keyOf a) (keyOf b)) = decide (qKeyN a < qKeyN b) := by
    intro a ha b hb
    have ha' := h a (List.mem_reverse.mp ha)
    have hb' := h b (List.mem_reverse.mp hb)
    rcases hay : a.year with _ | ya
    · rcases hby : b.year with _ | yb
      · simp [keyOf, qKeyN, hay, hby, yvLt]
      · rcases yb with nb | _
        · simp [keyOf, qKeyN, hay, hby, yvLt]
        · exact absurd hby hb'
    · rcases ya with na | _
      · rcases hby : b.year with _ | yb
        · simp [keyOf, qKeyN, hay, hby, yvLt]
        · rcases yb with nb | _
          · simp [keyOf, qKeyN, hay, hby, yvLt]
          · exact absurd hby hb'
      · exact absurd hay ha'
  rw [pySortAsc_congr _ _ l.reverse hagree]
  have hs := pySortAsc_sorted qKeyN l.reverse
  exact List.pairwise_reverse.mpr hs

/-! ## Claim theorems for the CLI selection policies -/

/-- C4 counterexample: a mixed catalog (three year-ful names, one
year-less) traced through `find_intersecting_datasets` gives the
year-less dataset a `NaN` year cell — not 0 and not an absent key — and
`datasets.sort(key=lambda x: x.get('year', 0), reverse=True)` run on the
resulting keys `[2005, NaN, 2020, 2010]` leaves the list unchanged
(every comparison with `NaN` is `False`, so the whole reversed list
counts as one ascending run), which is not non-increasing: a 2005
dataset precedes a 2020 one. -/
theorem sort_not_by_year_with_nan :
    find_intersecting_datasets
      (pureEnv
        [⟨some ⟨.polygon, [((0 : ℤ), (0 : ℤ))]⟩, [("name", "A_2005")]⟩,
         ⟨some ⟨.polygon, [((0 : ℤ), (0 : ℤ))]⟩, [("name", "B_nodate")]⟩,
         ⟨some ⟨.polygon, [((0 : ℤ), (0 : ℤ))]⟩, [("name", "C_2020")]⟩,
         ⟨some ⟨.polygon, [((0 : ℤ), (0 : ℤ))]⟩, [("name", "D_2010")]⟩])
      (.geometry ⟨.polygon, [((0 : ℤ), (0 : ℤ))]⟩) =
      [⟨"A_2005", .s "", ⟨.polygon, [((0 : ℤ), (0 : ℤ))]⟩,
          some (.num 2005), Option.none⟩,
       ⟨"B_nodate", .s "", ⟨.polygon, [((0 : ℤ), (0 : ℤ))]⟩,
          some .nan, Option.none⟩,
       ⟨"C_2020", .s "", ⟨.polygon, [((0 : ℤ), (0 : ℤ))]⟩,
          some (.num 2020), Option.none⟩,
       ⟨"D_2010", .s "", ⟨.polygon, [((0 : ℤ), (0 : ℤ))]⟩,
          some (.num 2010), Option.none⟩] ∧
    sortDatasets
      [⟨"A_2005", .s "", ⟨.polygon, [((0 : ℤ), (0 : ℤ))]⟩,
          some (.num 2005), Option.none⟩,
       ⟨"B_nodate", .s "", ⟨.polygon, [((0 : ℤ), (0 : ℤ))]⟩,
          some .nan, Option.none⟩,
       ⟨"C_2020", .s "", ⟨.polygon, [((0 : ℤ), (0 : ℤ))]⟩,
          some (.num 2020), Option.none⟩,
       ⟨"D_2010", .s "", ⟨.polygon, [((0 : ℤ), (0 : ℤ))]⟩,
          some (.num 2010), Option.none⟩] =
      [⟨"A_2005", .s "", ⟨.polygon, [((0 : ℤ), (0 : ℤ))]⟩,
          some (.num 2005), Option.none⟩,
       ⟨"B_nodate", .s "", ⟨.polygon, [((0 : ℤ), (0 : ℤ))]⟩,
          some .nan, Option.none⟩,
       ⟨"C_2020", .s "", ⟨.polygon, [((0 : ℤ), (0 : ℤ))]⟩,
          some (.num 2020), Option.none⟩,
       ⟨"D_2010", .s "", ⟨.polygon, [((0 : ℤ), (0 : ℤ))]⟩,
          some (.num 2010), Option.none⟩] ∧
    keyOf ⟨"B_nodate", .s "", ⟨.polygon, [((0 : ℤ), (0 : ℤ))]⟩,
        some .nan, Option.none⟩ = .nan ∧
    ¬ List.Sorted (fun a d => qKeyN d ≤ qKeyN a)
      (sortDatasets
        [⟨"A_2005", .s "", ⟨.polygon, [((0 : ℤ), (0 : ℤ))]⟩,
            some (.num 2005), Option.none⟩,
         ⟨"B_nodate", .s "", ⟨.polygon, [((0 : ℤ), (0 : ℤ))]⟩,
            some .nan, Option.none⟩,
         ⟨"C_2020", .s "", ⟨.polygon, [((0 : ℤ), (0 : ℤ))]⟩,
            some (.num 2020), Option.none⟩,
         ⟨"D_2010", .s "", ⟨.polygon, [((0 : ℤ), (0 : ℤ))]⟩,
            some (.num 2010), Option.none⟩]) :=
  ⟨rfl, rfl, rfl, by decide⟩

/-- C4 (amended): the list the CLI builds before downloading is a
permutation of the intersecting datasets produced by CPython's
stable descending sort on the key `x.get('year', 0)`; whenever every
dataset's year cell is numeric (no `NaN`, i.e. the catalog is not
mixed), that list is sorted by year non-increasingly; and download
attempts are made in exactly the produced order — the `--most-recent`
loop's requests form a prefix of it, the all-datasets loop's requests
are exactly it. -/
theorem datasets_sorted_and_downloaded_in_order (l : List DatasetEntry)
    {B : Type} (b : B) (dl : Nat → DatasetEntry → B → List String)
    (pts : String → Nat) :
    (sortDatasets l).Perm l ∧
    ((∀ d ∈ l, d.year ≠ some .nan) →
      List.Sorted (fun a d => qKeyN d ≤ qKeyN a) (sortDatasets l)) ∧
    (∃ rest,
      (mostRecentRun (sortDatasets l) b dl pts).1.map Prod.fst ++ rest =
        sortDatasets l) ∧
    (allRun (sortDatasets l) b dl).1.map Prod.fst = sortDatasets l := by
  refine ⟨sortDatasets_perm l, sortDatasets_sorted_of_numeric l, ?_, ?_⟩
  · exact mrGo_front b dl pts (sortDatasets l) 0 []
  · show (allGo b dl 0 (sortDatasets l)).1.map Prod.fst = sortDatasets l
    rw [(allGo_spec b dl (sortDatasets l) 0).1, List.map_map]
    exact List.map_id _

/-- C4 witness: the amended theorem applied at a concrete `NaN`-free
list. -/
theorem datasets_sorted_and_downloaded_in_order_witness :
    List.Sorted (fun a d => qKeyN d ≤ qKeyN a)
      (sortDatasets
        [⟨"D_2010", .s "", ⟨.polygon, []⟩, some (.num 2010), Option.none⟩,
         ⟨"C_2020", .s "", ⟨.polygon, []⟩, some (.num 2020), Option.none⟩]) :=
  (datasets_sorted_and_downloaded_in_order
      [⟨"D_2010", .s "", ⟨.polygon, []⟩, some (.num 2010), Option.none⟩,
       ⟨"C_2020", .s "", ⟨.polygon, []⟩, some (.num 2020), Option.none⟩]
      (0 : Nat) (fun _ _ _ => []) (fun _ => 0)).2.1 (by decide)

/-- C5: without `--most-recent`, a download is attempted from every
intersecting dataset, in the sorted order, and the downloaded-files list
is exactly the concatenation of the files produced by each dataset's
download. -/
theorem all_strategy_downloads_everything (l : List DatasetEntry)
    {B : Type} (b : B) (dl : Nat → DatasetEntry → B → List String) :
    (allRun (sortDatasets l) b dl).1 =
      (sortDatasets l).map (fun d => (d, b)) ∧
    (allRun (sortDatasets l) b dl).2 =
      (((sortDatasets l).enum).map (fun p => dl p.1 p.2 b)).flatten :=
  allGo_spec b dl (sortDatasets l) 0

/-- C1 counterexample: two datasets, the newer one's footprint fully
covering the boundary.  The `--most-recent` loop still issues a download
request for the older dataset, and that request carries the entire user
boundary rather than the (empty) uncovered region: the boundary is never
narrowed and coverage is never computed. -/
theorem mostRecent_downloads_older_despite_full_cover :
    geomCovers [((0 : ℤ), (0 : ℤ))]
        (DatasetEntry.geometry
          ⟨"DS_2020", .s "", ⟨.polygon, [((0 : ℤ), (0 : ℤ))]⟩,
            some (.num 2020), Option.none⟩).pts = true ∧
    (mostRecentRun
        [⟨"DS_2020", .s "", ⟨.polygon, [((0 : ℤ), (0 : ℤ))]⟩,
            some (.num 2020), Option.none⟩,
         ⟨"DS_2010", .s "", ⟨.polygon, []⟩, some (.num 2010), Option.none⟩]
        [((0 : ℤ), (0 : ℤ))]
        (fun i _ _ => if i = 0 then ["f1"] else ["f2"])
        (fun _ => 500)).1 =
      [(⟨"DS_2020", .s "", ⟨.polygon, [((0 : ℤ), (0 : ℤ))]⟩,
          some (.num 2020), Option.none⟩, [((0 : ℤ), (0 : ℤ))]),
       (⟨"DS_2010", .s "", ⟨.polygon, []⟩, some (.num 2010), Option.none⟩,
          [((0 : ℤ), (0 : ℤ))])] := by
  constructor
  · rfl
  · rfl

/-- C1 (amended): under `--most-recent`, every download request carries
the full user boundary unchanged (the uncovered region is never
computed), the requested datasets form a prefix of the given order, and
an older dataset is skipped only when the files already downloaded sum
to more than 1 000 000 points. -/
theorem mostRecent_boundary_never_narrowed {B : Type}
    (ds : List DatasetEntry) (b : B)
    (dl : Nat → DatasetEntry → B → List String) (pts : String → Nat) :
    (∀ r ∈ (mostRecentRun ds b dl pts).1, r.2 = b) ∧
    (∃ rest, (mostRecentRun ds b dl pts).1.map Prod.fst ++ rest = ds) ∧
    ((mostRecentRun ds b dl pts).1.length < ds.length →
      1000000 < sumPts pts (mostRecentRun ds b dl pts).2) :=
  ⟨mrGo_boundary b dl pts ds 0 [], mrGo_front b dl pts ds 0 [],
   mrGo_break b dl pts ds 0 []⟩

/-- C1 witness: the amended theorem applied at a concrete run in which
the point-count heuristic does fire. -/
theorem mostRecent_boundary_never_narrowed_witness :
    ((⟨"DS_2020", .s "", ⟨.polygon, []⟩, some (.num 2020), Option.none⟩ : DatasetEntry),
        [((0 : ℤ), (0 : ℤ))]).2 = [((0 : ℤ), (0 : ℤ))] ∧
    1000000 < sumPts (fun _ => 2000000)
      (mostRecentRun
        [⟨"DS_2020", .s "", ⟨.polygon, []⟩, some (.num 2020), Option.none⟩,
         ⟨"DS_2010", .s "", ⟨.polygon, []⟩, some (.num 2010), Option.none⟩]
        [((0 : ℤ), (0 : ℤ))] (fun _ _ _ => ["g"]) (fun _ => 2000000)).2 :=
  ⟨(mostRecent_boundary_never_narrowed
      [⟨"DS_2020", .s "", ⟨.polygon, []⟩, some (.num 2020), Option.none⟩,
       ⟨"DS_2010", .s "", ⟨.polygon, []⟩, some (.num 2010), Option.none⟩]
      [((0 : ℤ), (0 : ℤ))] (fun _ _ _ => ["g"]) (fun _ => 2000000)).1
      _ (by decide),
   (mostRecent_boundary_never_narrowed
      [⟨"DS_2020", .s "", ⟨.polygon, []⟩, some (.num 2020), Option.none⟩,
       ⟨"DS_2010", .s "", ⟨.polygon, []⟩, some (.num 2010), Option.none⟩]
      [((0 : ℤ), (0 : ℤ))] (fun _ _ _ => ["g"]) (fun _ => 2000000)).2.2
      (by decide)⟩

/-! ## Lemmas on `find_intersecting_datasets` over a pure environment -/

theorem except_bind_ok {ε α β : Type} (a : α) (f : α → Except ε β) :
    ((Except.ok a : Except ε α) >>= f) = f a := rfl

/-- The candidates the catalog loop admits: features with a geometry, a
non-empty properties dict and a non-empty name. -/
def admittedPairs : List CatFeature → List (GeomV × List (String × String))
  | [] => []
  | f :: rest =>
    match f.geometry with
    | some g =>
      if f.properties ≠ [] ∧ propGet f.properties "name" "" ≠ "" then
        (g, f.properties) :: admittedPairs rest
      else admittedPairs rest
    | Option.none => admittedPairs rest

theorem buildCandidates_pure (cat : List CatFeature) :
    ∀ feats, buildCandidates (pureEnv cat) feats = .ok (admittedPairs feats) := by
  intro feats
  induction feats with
  | nil => rfl
  | cons f rest ih =>
    simp only [buildCandidates, admittedPairs]
    cases hg : f.geometry with
    | none => exact ih
    | some g =>
      show (if f.properties ≠ [] ∧ propGet f.properties "name" "" ≠ "" then do
            let g' ← (pureEnv cat).shape g
            let rest' ← buildCandidates (pureEnv cat) rest
            pure ((g', f.properties) :: rest')
          else buildCandidates (pureEnv cat) rest) =
        Except.ok
          (if f.properties ≠ [] ∧ propGet f.properties "name" "" ≠ "" then
            (g, f.properties) :: admittedPairs rest
          else admittedPairs rest)
      by_cases hc : f.properties ≠ [] ∧ propGet f.properties "name" "" ≠ ""
      · rw [if_pos hc, if_pos hc]
        show ((pureEnv cat).shape g >>= fun g' =>
          buildCandidates (pureEnv cat) rest >>= fun rest' =>
            pure ((g', f.properties) :: rest')) = _
        rw [show (pureEnv cat).shape g = .ok g from rfl, except_bind_ok, ih]
        rfl
      · rw [if_neg hc, if_neg hc]
        exact ih

theorem find_intersecting_pure (cat : List CatFeature) (bj : GeoJson)
    (bg : GeomV) (h : boundary_to_gdf (pureEnv cat) bj = some bg) :
    find_intersecting_datasets (pureEnv cat) bj =
      ((admittedPairs cat).filter
        (fun c => geomIntersects c.1.pts bg.pts)).map
        (mkEntry (hasUrlColumn (admittedPairs cat))
          (hasYearColumn (admittedPairs cat))) := by
  have hdl : download_usgs_boundaries (pureEnv cat) = some cat := rfl
  by_cases hcat : cat = []
  · subst hcat
    simp [find_intersecting_datasets, hdl, h, findIntersectingTry, admittedPairs]
  · simp only [find_intersecting_datasets, hdl, h, findIntersectingTry,
      if_neg hcat, buildCandidates_pure cat cat, except_bind_ok]
    rfl

theorem mem_admittedPairs :
    ∀ (feats : List CatFeature) (f : CatFeature) (g : GeomV), f ∈ feats →
      f.geometry = some g → f.properties ≠ [] →
      propGet f.properties "name" "" ≠ "" →
      (g, f.properties) ∈ admittedPairs feats := by
  intro feats
  induction feats with
  | nil => intro f g hf; simp at hf
  | cons f0 rest ih =>
    intro f g hf hg hp hn
    rcases List.mem_cons.mp hf with rfl | hf'
    · simp only [admittedPairs, hg, if_pos (And.intro hp hn)]
      exact List.mem_cons_self _ _
    · simp only [admittedPairs]
      cases f0.geometry with
      | none => exact ih f g hf' hg hp hn
      | some g0 =>
        show (g, f.properties) ∈
          (if f0.properties ≠ [] ∧ propGet f0.properties "name" "" ≠ "" then
            (g0, f0.properties) :: admittedPairs rest
          else admittedPairs rest)
        by_cases hc : f0.properties ≠ [] ∧ propGet f0.properties "name" "" ≠ ""
        · rw [if_pos hc]
          exact List.mem_cons_of_mem _ (ih f g hf' hg hp hn)
        · rw [if_neg hc]
          exact ih f g hf' hg hp hn

/-- C2 counterexample: a catalog feature whose footprint intersects the
boundary but whose properties carry no (non-empty) `name` is silently
dropped: the result is empty although an intersecting feature exists,
refuting "every catalog feature whose geometry intersects the boundary
appears in the result". -/
theorem find_intersecting_drops_unnamed_feature :
    geomIntersects ([((0 : ℤ), (0 : ℤ))] : Geom) [((0 : ℤ), (0 : ℤ))] = true ∧
    boundary_to_gdf
      (pureEnv [⟨some ⟨.polygon, [((0 : ℤ), (0 : ℤ))]⟩, [("url", "u")]⟩])
      (.geometry ⟨.polygon, [((0 : ℤ), (0 : ℤ))]⟩) =
        some ⟨.polygon, [((0 : ℤ), (0 : ℤ))]⟩ ∧
    find_intersecting_datasets
      (pureEnv [⟨some ⟨.polygon, [((0 : ℤ), (0 : ℤ))]⟩, [("url", "u")]⟩])
      (.geometry ⟨.polygon, [((0 : ℤ), (0 : ℤ))]⟩) = [] :=
  ⟨rfl, rfl, rfl⟩

/-- C2 (amended): every returned entry's footprint intersects the
boundary, and every catalog feature **that carries a geometry, a
non-empty properties mapping and a non-empty name** and whose footprint
intersects the boundary appears in the result with its name and
footprint geometry; its url is carried over exactly when its own
properties contain one (a url-less admitted feature's entry instead
reads the pandas cell: `NaN` when another admitted feature contributes a
`url` column, the empty string otherwise). -/
theorem find_intersecting_sound_and_complete (cat : List CatFeature)
    (bj : GeoJson) (bg : GeomV)
    (h : boundary_to_gdf (pureEnv cat) bj = some bg) :
    (∀ e ∈ find_intersecting_datasets (pureEnv cat) bj,
        geomIntersects e.geometry.pts bg.pts = true) ∧
    (∀ f ∈ cat, ∀ g : GeomV, f.geometry = some g →
        f.properties ≠ [] → propGet f.properties "name" "" ≠ "" →
        geomIntersects g.pts bg.pts = true →
        ∃ e ∈ find_intersecting_datasets (pureEnv cat) bj,
          e.name = propGet f.properties "name" "" ∧
          e.geometry = g ∧
          (propHas f.properties "url" = true →
            e.url = .s (propGet f.properties "url" ""))) := by
  constructor
  · intro e he
    rw [find_intersecting_pure cat bj bg h] at he
    obtain ⟨c, hc, rfl⟩ := List.mem_map.mp he
    have hm := (List.mem_filter.mp hc).2
    simpa [mkEntry] using hm
  · intro f hf g hg hp hn hi
    refine ⟨mkEntry (hasUrlColumn (admittedPairs cat))
        (hasYearColumn (admittedPairs cat)) (g, f.properties), ?_, rfl, rfl,
        ?_⟩
    · rw [find_intersecting_pure cat bj bg h]
      exact List.mem_map_of_mem _
        (List.mem_filter.mpr ⟨mem_admittedPairs cat f g hf hg hp hn, hi⟩)
    · intro hu
      simp [mkEntry, hu]

/-- C2 witness: the amended theorem applied to a one-feature catalog
whose feature is properly named, carries a url and intersects the
boundary. -/
theorem find_intersecting_sound_and_complete_witness :
    ∃ e ∈ find_intersecting_datasets
        (pureEnv [⟨some ⟨.polygon, [((0 : ℤ), (0 : ℤ))]⟩,
                   [("name", "DS_2011"), ("url", "u")]⟩])
        (.geometry ⟨.polygon, [((0 : ℤ), (0 : ℤ))]⟩),
      e.name = propGet [("name", "DS_2011"), ("url", "u")] "name" "" ∧
      e.geometry = (⟨.polygon, [((0 : ℤ), (0 : ℤ))]⟩ : GeomV) ∧
      (propHas [("name", "DS_2011"), ("url", "u")] "url" = true →
        e.url = .s (propGet [("name", "DS_2011"), ("url", "u")] "url" "")) :=
  (find_intersecting_sound_and_complete
      [⟨some ⟨.polygon, [((0 : ℤ), (0 : ℤ))]⟩,
        [("name", "DS_2011"), ("url", "u")]⟩]
      (.geometry ⟨.polygon, [((0 : ℤ), (0 : ℤ))]⟩)
      ⟨.polygon, [((0 : ℤ), (0 : ℤ))]⟩ rfl).2
    ⟨some ⟨.polygon, [((0 : ℤ), (0 : ℤ))]⟩, [("name", "DS_2011"), ("url", "u")]⟩
    (List.mem_cons_self _ _) ⟨.polygon, [((0 : ℤ), (0 : ℤ))]⟩ rfl
    (by decide) (by decide) rfl

/-- C8: no failure escapes: each of the three functions either reports
the clean success of its `try` body, or returns its fallback value
(`[]`, `[]`, `(False, 0)` respectively); exceptions raised by any oracle
call inside the body can only produce the fallback. -/
theorem errors_are_caught :
    (∀ (env : BEnv) (bj : GeoJson),
      find_intersecting_datasets env bj = [] ∨
      ∃ feats bg r, download_usgs_boundaries env = some feats ∧
        boundary_to_gdf env bj = some bg ∧
        findIntersectingTry env feats bg = .ok r ∧
        find_intersecting_datasets env bj = r) ∧
    (∀ (env : DEnv) (bj : Option GeoJson) (ds : DatasetEntry) (od : String)
        (cfg : DlConfig) (gfn : Option String),
      download_dataset env bj ds od cfg gfn = [] ∨
      ∃ v, ddBody env bj ds od cfg gfn = .ok v ∧
        download_dataset env bj ds od cfg gfn = v) ∧
    (∀ (env : DEnv) (p : List Stage) (mp : Nat) (od : Option String),
      run_pdal_pipeline env p mp od = (false, 0) ∨
      ∃ v, rppBody env p od = .ok v ∧ run_pdal_pipeline env p mp od = v) := by
  refine ⟨?_, ?_, ?_⟩
  · intro env bj
    rcases h1 : download_usgs_boundaries env with _ | feats
    · left
      simp only [find_intersecting_datasets, h1]
    · rcases h2 : boundary_to_gdf env bj with _ | bg
      · left
        simp only [find_intersecting_datasets, h1, h2]
      · rcases h3 : findIntersectingTry env feats bg with e | r
        · left
          simp only [find_intersecting_datasets, h1, h2, h3]
        · right
          refine ⟨feats, bg, r, rfl, rfl, h3, ?_⟩
          simp only [find_intersecting_datasets, h1, h2, h3]
  · intro env bj ds od cfg gfn
    rcases h : ddBody env bj ds od cfg gfn with e | v
    · left
      simp only [download_dataset, h]
    · right
      refine ⟨v, rfl, ?_⟩
      simp only [download_dataset, h]
  · intro env p mp od
    rcases h : rppBody env p od with e | v
    · left
      simp only [run_pdal_pipeline, h]
    · right
      refine ⟨v, rfl, ?_⟩
      simp only [run_pdal_pipeline, h]

/-! ## Lemmas on configuration dictionaries -/

theorem get_set_self (d : PyDict) (k : String) (v : PyVal) :
    (d.set k v).get? k = some v := by
  induction d with
  | nil => simp [PyDict.set, PyDict.get?]
  | cons p rest ih =>
    by_cases h : p.1 = k
    · simp [PyDict.set, PyDict.get?, h]
    · simp [PyDict.set, PyDict.get?, h, ih]

theorem get_set_ne (d : PyDict) (k k' : String) (v : PyVal) (h : k' ≠ k) :
    (d.set k v).get? k' = d.get? k' := by
  have hkk : ¬ k = k' := fun e => h e.symm
  induction d with
  | nil => simp [PyDict.set, PyDict.get?, hkk]
  | cons p rest ih =>
    by_cases hp : p.1 = k
    · simp [PyDict.set, PyDict.get?, hp, hkk]
    · simp [PyDict.set, PyDict.get?, hp, ih]

theorem set_isSome (d : PyDict) (k k' : String) (v : PyVal)
    (h : (d.get? k).isSome) : ((d.set k' v).get? k).isSome := by
  by_cases hk : k = k'
  · subst hk
    simp [get_set_self]
  · rwa [get_set_ne d k' k v hk]

theorem update_isSome (u : List (String × PyVal)) :
    ∀ (d : PyDict) (k : String),
      (d.get? k).isSome → ((PyDict.update d u).get? k).isSome := by
  induction u with
  | nil => intro d k h; exact h
  | cons p u' ih =>
    intro d k h
    exact ih (d.set p.1 p.2) k (set_isSome d k p.1 p.2 h)

/-! Per-key behaviour of the four validation blocks. -/

theorem stepTile_ne (env : PyEnv) (c : PyDict) (k : String)
    (hk : k ≠ "tile_size") : (stepTile env c).get? k = c.get? k := by
  rcases h : c.get? "tile_size" with _ | v
  · simp [stepTile, h]
  · simp only [stepTile, h]
    rcases hf : pyFloat env v with e | f <;> simp only [hf]
    · exact get_set_ne c "tile_size" k (.int 1000) hk
    · split_ifs <;> exact get_set_ne c "tile_size" k _ hk

theorem stepRes_ne (env : PyEnv) (c : PyDict) (k : String)
    (hk : k ≠ "resolution") : (stepRes env c).get? k = c.get? k := by
  rcases h : c.get? "resolution" with _ | v
  · simp [stepRes, h]
  · simp only [stepRes, h]
    split_ifs with h1 h2
    · rfl
    · rcases hf : pyFloat env v with e | f <;> simp only [hf]
      · exact get_set_ne c "resolution" k .none hk
      · split_ifs <;> exact get_set_ne c "resolution" k _ hk
    · exact get_set_ne c "resolution" k .none hk

theorem stepWorkers_ne (env : PyEnv) (c : PyDict) (k : String)
    (hk : k ≠ "download_workers") : (stepWorkers env c).get? k = c.get? k := by
  rcases h : c.get? "download_workers" with _ | v
  · simp [stepWorkers, h]
  · simp only [stepWorkers, h]
    rcases hf : pyInt env v with e | n <;> simp only [hf]
    · exact get_set_ne c "download_workers" k (.int 8) hk
    · split_ifs <;> exact get_set_ne c "download_workers" k _ hk

theorem stepMinPoints_ne (env : PyEnv) (c : PyDict) (k : String)
    (hk : k ≠ "min_points") : (stepMinPoints env c).get? k = c.get? k := by
  rcases h : c.get? "min_points" with _ | v
  · simp [stepMinPoints, h]
  · simp only [stepMinPoints, h]
    rcases hf : pyInt env v with e | n <;> simp only [hf]
    · exact get_set_ne c "min_points" k (.int 100) hk
    · split_ifs <;> exact get_set_ne c "min_points" k _ hk

theorem stepTile_tile (env : PyEnv) (c : PyDict) :
    ∀ v, (stepTile env c).get? "tile_size" = some v →
      isPosNum v = true ∨ isNanVal v = true := by
  intro v
  rcases h : c.get? "tile_size" with _ | w
  · simp only [stepTile, h]
    intro hv
    cases hv
  · simp only [stepTile, h]
    rcases hf : pyFloat env w with e | f <;> simp only [hf]
    · rw [get_set_self]
      intro hv
      obtain rfl := Option.some.inj hv
      left; rfl
    · split_ifs with hle
      · rw [get_set_self]
        intro hv
        obtain rfl := Option.some.inj hv
        left; rfl
      · rw [get_set_self]
        intro hv
        obtain rfl := Option.some.inj hv
        rcases f with q | _ | _ | _
        · left
          simp only [PyFloat.leZero, decide_eq_true_eq] at hle
          simp only [isPosNum, decide_eq_true_eq]
          exact lt_of_not_le hle
        · left; rfl
        · exact absurd rfl hle
        · right; rfl

theorem stepRes_res (env : PyEnv) (c : PyDict) :
    ∀ v, (stepRes env c).get? "resolution" = some v →
      v = PyVal.none ∨ isPosFloatVal v = true ∨ isNanVal v = true := by
  intro v
  rcases h : c.get? "resolution" with _ | w
  · simp only [stepRes, h]
    intro hv
    cases hv
  · simp only [stepRes, h]
    split_ifs with h1 h2
    · intro hv
      rw [h] at hv
      obtain rfl := Option.some.inj hv
      left; exact h1
    · rcases hf : pyFloat env w with e | f <;> simp only [hf]
      · rw [get_set_self]
        intro hv
        obtain rfl := Option.some.inj hv
        left; rfl
      · split_ifs with hle
        · rw [get_set_self]
          intro hv
          obtain rfl := Option.some.inj hv
          left; rfl
        · rw [get_set_self]
          intro hv
          obtain rfl := Option.some.inj hv
          rcases f with q | _ | _ | _
          · right; left
            simp only [PyFloat.leZero, decide_eq_true_eq] at hle
            simp only [isPosFloatVal, decide_eq_true_eq]
            exact lt_of_not_le hle
          · right; left; rfl
          · exact absurd rfl hle
          · right; right; rfl
    · rw [get_set_self]
      intro hv
      obtain rfl := Option.some.inj hv
      left; rfl

theorem stepWorkers_workers (env : PyEnv) (c : PyDict) :
    ∀ v, (stepWorkers env c).get? "download_workers" = some v →
      ∃ n : ℤ, v = .int n ∧ 0 < n := by
  intro v
  rcases h : c.get? "download_workers" with _ | w
  · simp only [stepWorkers, h]
    intro hv
    cases hv
  · simp only [stepWorkers, h]
    rcases hf : pyInt env w with e | n <;> simp only [hf]
    · rw [get_set_self]
      intro hv
      obtain rfl := Option.some.inj hv
      exact ⟨8, rfl, by decide⟩
    · split_ifs with hle
      · rw [get_set_self]
        intro hv
        obtain rfl := Option.some.inj hv
        exact ⟨8, rfl, by decide⟩
      · rw [get_set_self]
        intro hv
        obtain rfl := Option.some.inj hv
        exact ⟨n, rfl, by omega⟩

theorem stepMinPoints_min (env : PyEnv) (c : PyDict) :
    ∀ v, (stepMinPoints env c).get? "min_points" = some v →
      ∃ n : ℤ, v = .int n ∧ 0 ≤ n := by
  intro v
  rcases h : c.get? "min_points" with _ | w
  · simp only [stepMinPoints, h]
    intro hv
    cases hv
  · simp only [stepMinPoints, h]
    rcases hf : pyInt env w with e | n <;> simp only [hf]
    · rw [get_set_self]
      intro hv
      obtain rfl := Option.some.inj hv
      exact ⟨100, rfl, by decide⟩
    · split_ifs with hle
      · rw [get_set_self]
        intro hv
        obtain rfl := Option.some.inj hv
        exact ⟨100, rfl, by decide⟩
      · rw [get_set_self]
        intro hv
        obtain rfl := Option.some.inj hv
        exact ⟨n, rfl, by omega⟩

theorem stepTile_isSome (env : PyEnv) (c : PyDict) (k : String)
    (h : (c.get? k).isSome) : ((stepTile env c).get? k).isSome := by
  by_cases hk : k = "tile_size"
  · subst hk
    rcases hg : c.get? "tile_size" with _ | v
    · rw [hg] at h
      cases h
    · simp only [stepTile, hg]
      rcases hf : pyFloat env v with e | f <;> simp only [hf]
      · simp [get_set_self]
      · split_ifs <;> simp [get_set_self]
  · rwa [stepTile_ne env c k hk]

theorem stepRes_isSome (env : PyEnv) (c : PyDict) (k : String)
    (h : (c.get? k).isSome) : ((stepRes env c).get? k).isSome := by
  by_cases hk : k = "resolution"
  · subst hk
    rcases hg : c.get? "resolution" with _ | v
    · rw [hg] at h
      cases h
    · simp only [stepRes, hg]
      split_ifs
      · simp [hg]
      · rcases hf : pyFloat env v with e | f <;> simp only [hf]
        · simp [get_set_self]
        · split_ifs <;> simp [get_set_self]
      · simp [get_set_self]
  · rwa [stepRes_ne env c k hk]

theorem stepWorkers_isSome (env : PyEnv) (c : PyDict) (k : String)
    (h : (c.get? k).isSome) : ((stepWorkers env c).get? k).isSome := by
  by_cases hk : k = "download_workers"
  · subst hk
    rcases hg : c.get? "download_workers" with _ | v
    · rw [hg] at h
      cases h
    · simp only [stepWorkers, hg]
      rcases hf : pyInt env v with e | n <;> simp only [hf]
      · simp [get_set_self]
      · split_ifs <;> simp [get_set_self]
  · rwa [stepWorkers_ne env c k hk]

theorem stepMinPoints_isSome (env : PyEnv) (c : PyDict) (k : String)
    (h : (c.get? k).isSome) : ((stepMinPoints env c).get? k).isSome := by
  by_cases hk : k = "min_points"
  · subst hk
    rcases hg : c.get? "min_points" with _ | v
    · rw [hg] at h
      cases h
    · simp only [stepMinPoints, hg]
      rcases hf : pyInt env v with e | n <;> simp only [hf]
      · simp [get_set_self]
      · split_ifs <;> simp [get_set_self]
  · rwa [stepMinPoints_ne env c k hk]

/-- A conversion environment in which every string parse raises (its
choice is irrelevant to the claims proved below). -/
def pyEnvErr : PyEnv :=
  { strToFloat := fun _ => .error (), strToInt := fun _ => .error () }

/-- C9 counterexample: a `tile_size` of float `NaN` (which Python's JSON
parser produces for a literal `NaN` in the config file) passes
validation unchanged — `nan <= 0` is `False` — so the returned
configuration's `tile_size` is not a positive number; and for an input
dictionary missing the key, the returned dictionary still misses it
rather than holding the default. -/
theorem validate_config_keeps_nan :
    (validate_config pyEnvErr [("tile_size", .float .nan)]).get? "tile_size" =
      some (.float .nan) ∧
    isPosNum (.float .nan) = false ∧
    (validate_config pyEnvErr []).get? "tile_size" = Option.none :=
  ⟨rfl, rfl, rfl⟩

/-- C9 (amended): for every input dictionary, each of the four validated
keys that is present in the result satisfies: `tile_size` is a positive
number or `NaN`; `resolution` is `None`, a positive float, or `NaN`
(never the string `"full"`); `download_workers` is a positive integer;
`min_points` is a non-negative integer — and every configuration
returned by `load_config` carries all four keys with these properties.
(`NaN` escapes the positivity checks because Python's `nan <= 0` is
`False`; keys absent from the input are not added by `validate_config`.) -/
theorem validate_config_invariant (env : PyEnv) (config : PyDict) :
    (∀ v, (validate_config env config).get? "tile_size" = some v →
      isPosNum v = true ∨ isNanVal v = true) ∧
    (∀ v, (validate_config env config).get? "resolution" = some v →
      v = PyVal.none ∨ isPosFloatVal v = true ∨ isNanVal v = true) ∧
    (∀ v, (validate_config env config).get? "download_workers" = some v →
      ∃ n : ℤ, v = .int n ∧ 0 < n) ∧
    (∀ v, (validate_config env config).get? "min_points" = some v →
      ∃ n : ℤ, v = .int n ∧ 0 ≤ n) ∧
    (∀ fs : FsEnv,
      (∃ v, (load_config env fs).get? "tile_size" = some v ∧
        (isPosNum v = true ∨ isNanVal v = true)) ∧
      (∃ v, (load_config env fs).get? "resolution" = some v ∧
        (v = PyVal.none ∨ isPosFloatVal v = true ∨ isNanVal v = true)) ∧
      (∃ v, (load_config env fs).get? "download_workers" = some v ∧
        ∃ n : ℤ, v = .int n ∧ 0 < n) ∧
      (∃ v, (load_config env fs).get? "min_points" = some v ∧
        ∃ n : ℤ, v = .int n ∧ 0 ≤ n)) := by
  have tile : ∀ c v, (validate_config env c).get? "tile_size" = some v →
      isPosNum v = true ∨ isNanVal v = true := by
    intro c v hv
    unfold validate_config at hv
    rw [stepMinPoints_ne env _ _ (by decide),
      stepWorkers_ne env _ _ (by decide),
      stepRes_ne env _ _ (by decide)] at hv
    exact stepTile_tile env _ v hv
  have res : ∀ c v, (validate_config env c).get? "resolution" = some v →
      v = PyVal.none ∨ isPosFloatVal v = true ∨ isNanVal v = true := by
    intro c v hv
    unfold validate_config at hv
    rw [stepMinPoints_ne env _ _ (by decide),
      stepWorkers_ne env _ _ (by decide)] at hv
    exact stepRes_res env _ v hv
  have workers : ∀ c v,
      (validate_config env c).get? "download_workers" = some v →
      ∃ n : ℤ, v = .int n ∧ 0 < n := by
    intro c v hv
    unfold validate_config at hv
    rw [stepMinPoints_ne env _ _ (by decide)] at hv
    exact stepWorkers_workers env _ v hv
  have minp : ∀ c v, (validate_config env c).get? "min_points" = some v →
      ∃ n : ℤ, v = .int n ∧ 0 ≤ n := by
    intro c v hv
    unfold validate_config at hv
    exact stepMinPoints_min env _ v hv
  have presence : ∀ (fs : FsEnv) (k : String),
      (DEFAULT_CONFIG.get? k).isSome →
      ((load_config env fs).get? k).isSome := by
    intro fs k hd
    unfold load_config validate_config
    apply stepMinPoints_isSome
    apply stepWorkers_isSome
    apply stepRes_isSome
    apply stepTile_isSome
    split
    · split
      · exact update_isSome _ DEFAULT_CONFIG k hd
      · exact hd
    · exact hd
  refine ⟨tile config, res config, workers config, minp config, ?_⟩
  intro fs
  have h1 := presence fs "tile_size" (by decide)
  have h2 := presence fs "resolution" (by decide)
  have h3 := presence fs "download_workers" (by decide)
  have h4 := presence fs "min_points" (by decide)
  obtain ⟨v1, hv1⟩ := Option.isSome_iff_exists.mp h1
  obtain ⟨v2, hv2⟩ := Option.isSome_iff_exists.mp h2
  obtain ⟨v3, hv3⟩ := Option.isSome_iff_exists.mp h3
  obtain ⟨v4, hv4⟩ := Option.isSome_iff_exists.mp h4
  exact ⟨⟨v1, hv1, tile _ v1 hv1⟩, ⟨v2, hv2, res _ v2 hv2⟩,
    ⟨v3, hv3, workers _ v3 hv3⟩, ⟨v4, hv4, minp _ v4 hv4⟩⟩

/-- C9 witness: the amended theorem applied at concrete inputs. -/
theorem validate_config_invariant_witness :
    (isPosNum (.float (.fin 5)) = true ∨ isNanVal (.float (.fin 5)) = true) ∧
    (∃ v, (load_config pyEnvErr ⟨false, .error ()⟩).get? "min_points" =
        some v ∧ ∃ n : ℤ, v = .int n ∧ 0 ≤ n) :=
  ⟨(validate_config_invariant pyEnvErr [("tile_size", .int 5)]).1
      (.float (.fin 5)) rfl,
   ((validate_config_invariant pyEnvErr DEFAULT_CONFIG).2.2.2.2
      ⟨false, .error ()⟩).2.2.2⟩

end USGSLidar
